import Mathlib

/-!
Sealed-key lifecycle and encryption pipeline of tpm-demo

A shallow embedding of `src/common.cpp`, `src/data_encrypt.cpp` and
`src/data_decrypt.cpp`.

The program talks to three collaborators that are not part of the repository:
the TPM through the FAPI library, the kernel entropy device and the file
system, and the OpenSSL EVP cipher interface.  They are modelled as follows.

* `World` is the state outside the program: the provisioning marker file, the
  objects sealed in the store, the number of open FAPI sessions and the trace
  of every outside call made so far.
* `Env` decides the outcome of every outside call from the trace so far, so an
  outcome may differ from one call to the next.
* `Evp` holds the eight EVP functions the program calls, as parameters.

Bytes are natural numbers, `std::string` payloads and byte vectors are
`List Nat`, key references and store paths are `String`.  A C++ function with
output parameters takes their current value and returns their final value.
-/

namespace TpmDemo

/-! ## Outcomes of a call -/

/-- How a C++ function call of the program ends. -/
inductive Outcome (α : Type) where
  /-- normal return with a value -/
  | ret (a : α)
  /-- a `std::runtime_error` with the given `what()` leaves the function -/
  | threw (what : String)
  /-- the call `exit(code)` ended the process -/
  | exited (code : Nat)
  deriving DecidableEq, Repr

/-! ## The outside world -/

/-- Calls that leave the program, as recorded in the trace. -/
inductive Call where
  | fapiInitialize
  | fapiSetAuthCB
  | fapiProvision
  /-- the statement `std::ofstream out_file(kIsProvisionedIdentifier)` -/
  | markerWrite
  /-- the call `open("/dev/random")` followed by `read(fd, buffer, length)` -/
  | getRandom (length : Nat)
  /-- the call `Fapi_CreateSeal(ctx, path, type, data.size(), policyPath, authValue, data)` -/
  | fapiCreateSeal (path : String) (type : String) (policyPath : String)
      (authValue : String) (data : List Nat)
  | fapiUnseal (path : String)
  | fapiDelete (path : String)
  /-- the call `std::filesystem::remove(kIsProvisionedIdentifier)` -/
  | markerRemove
  | fapiFinalize
  deriving DecidableEq, Repr

/-- State outside the program. -/
structure World where
  /-- the file `fapi_provisioned` exists -/
  marker : Bool
  /-- objects sealed in the store, most recent first -/
  objects : List (String × List Nat)
  /-- FAPI contexts that were initialised and not finalised -/
  sessions : Nat
  /-- every outside call so far, in call order -/
  trace : List Call
  deriving DecidableEq, Repr

/-- Outcomes of outside calls, as a function of the calls made before. -/
structure Env where
  /-- does this call report success, given the trace so far -/
  ok : List Call → Call → Bool
  /-- bytes delivered by `read` on `/dev/random`; `none` when `open` or `read` fails -/
  entropy : List Call → Nat → Option (List Nat)

/-- Record an outside call in the trace. -/
def World.call (w : World) (c : Call) : World :=
  { w with trace := w.trace ++ [c] }

/-! ## FAPI and file-system calls -/

/-- Call of `Fapi_Initialize(&context_pointer, nullptr)`: on success a session is open. -/
def Fapi_Initialize (env : Env) (w : World) : Bool × World :=
  let ok := env.ok w.trace Call.fapiInitialize
  (ok, { w.call Call.fapiInitialize with sessions := if ok then w.sessions + 1 else w.sessions })

/-- Call of `Fapi_SetAuthCB(context_pointer, AuthCallback, nullptr)`. -/
def Fapi_SetAuthCB (env : Env) (w : World) : Bool × World :=
  (env.ok w.trace Call.fapiSetAuthCB, w.call Call.fapiSetAuthCB)

/-- Call of `Fapi_Provision(context_pointer, nullptr, nullptr, nullptr)`. -/
def Fapi_Provision (env : Env) (w : World) : Bool × World :=
  (env.ok w.trace Call.fapiProvision, w.call Call.fapiProvision)

/-- Statement `std::ofstream out_file(kIsProvisionedIdentifier)` and `is_open()`: opening
the file for writing creates it. -/
def openMarker (env : Env) (w : World) : Bool × World :=
  let ok := env.ok w.trace Call.markerWrite
  (ok, { w.call Call.markerWrite with marker := if ok then true else w.marker })

/-- Call of `Fapi_CreateSeal`: on success the object at `path` holds `data`. -/
def Fapi_CreateSeal (env : Env) (w : World) (path type policyPath authValue : String)
    (data : List Nat) : Bool × World :=
  let c := Call.fapiCreateSeal path type policyPath authValue data
  let ok := env.ok w.trace c
  (ok, { w.call c with objects := if ok then (path, data) :: w.objects else w.objects })

/-- Call of `Fapi_Unseal(context_pointer, path, &bytes, &size)`: the bytes of the object
at `path`; it fails when the call is refused or no object is there. -/
def Fapi_Unseal (env : Env) (w : World) (path : String) : Option (List Nat) × World :=
  let c := Call.fapiUnseal path
  (if env.ok w.trace c then w.objects.lookup path else none, w.call c)

/-! ## common.cpp -/

/-- common.cpp:12 -/
def kAuthenticationString : String := "default_auth_key"

/-- common.cpp:13 -/
def kIsProvisionedIdentifier : String := "fapi_provisioned"

/-- The text of every `std::runtime_error` thrown in common.cpp. -/
def kInitFailed : String := "TPM init failed"

/-- The path of the sealed key, common.cpp:27 and common.cpp:129. -/
def sealed_data_path (key_reference : String) : String :=
  "/HS/SRK/" ++ key_reference

/-- The path of the sealed IV, common.cpp:98 and common.cpp:197. -/
def sealed_iv_path (key_reference : String) : String :=
  sealed_data_path key_reference ++ "_iv"

/-- The C string that `std::string::c_str()` hands to a C function: the
characters before the first NUL character.  The store functions take their
path as such a `char const *` (common.cpp:86, 100, 189, 200). -/
def c_str (s : String) : String :=
  String.mk (s.toList.takeWhile (fun ch => ch != Char.ofNat 0))

/-- The connection block that opens both `Common::UnsealKey` (common.cpp:29-78)
and `Common::GenerateSealedKey` (common.cpp:131-180); the two copies are
identical.  `none` is the fall-through to "End of initalisation", `some what`
is a thrown `std::runtime_error`.  The `std::unique_ptr` named `context` is
built from `nullptr` and `Fapi_Initialize` writes to the copy
`context_pointer`, so the deleter `FapiContextDeleteWrapper` has nothing to
run on: no `Fapi_Finalize` call is made on any path. -/
def connectStore (env : Env) (w : World) : Option String × World :=
  let (okInit, w1) := Fapi_Initialize env w
  if !okInit then (some kInitFailed, w1)
  else
    let (okCB, w2) := Fapi_SetAuthCB env w1
    if !okCB then (some kInitFailed, w2)
    else if !w2.marker then
      let (okProv, w3) := Fapi_Provision env w2
      if !okProv then (some kInitFailed, w3)
      else
        let (okFile, w4) := openMarker env w3
        if okFile then (none, w4) else (some kInitFailed, w4)
    else (none, w2)

/-- Final state of a call of `Common::UnsealKey`. -/
structure UnsealKeyResult where
  result : Outcome Bool
  unsealed_key_data : List Nat
  unsealed_iv_data : List Nat
  world : World
  deriving DecidableEq, Repr

/-- Function `Common::UnsealKey`, common.cpp:21-116. -/
def UnsealKey (env : Env) (key_reference : String)
    (unsealed_key_data unsealed_iv_data : List Nat) (w : World) : UnsealKeyResult :=
  match connectStore env w with
  | (some what, w1) => ⟨Outcome.threw what, unsealed_key_data, unsealed_iv_data, w1⟩
  | (none, w1) =>
    match Fapi_Unseal env w1 (c_str (sealed_data_path key_reference)) with
    | (none, w2) => ⟨Outcome.ret false, unsealed_key_data, unsealed_iv_data, w2⟩
    | (some raw_key_bytes, w2) =>
      match Fapi_Unseal env w2 (c_str (sealed_iv_path key_reference)) with
      | (none, w3) => ⟨Outcome.ret false, unsealed_key_data, unsealed_iv_data, w3⟩
      | (some raw_iv_bytes, w3) => ⟨Outcome.ret true, raw_key_bytes, raw_iv_bytes, w3⟩

/-- The buffer after `read(fd, data_buffer, length)` delivered `got`: at most
`length` bytes overwrite the front of the buffer. -/
def readInto (data_buffer : List Nat) (length : Nat) (got : List Nat) : List Nat :=
  got.take length ++ data_buffer.drop (got.take length).length

/-- Function `Common::GetRandomData`, common.cpp:338-355: `none` is `exit(1)`. -/
def GetRandomData (env : Env) (data_buffer : List Nat) (length : Nat) (w : World) :
    Option (List Nat) × World :=
  match env.entropy w.trace length with
  | none => (none, w.call (Call.getRandom length))
  | some got => (some (readInto data_buffer length got), w.call (Call.getRandom length))

/-- Function `Common::GenerateSealedKey`, common.cpp:123-208.  The result of
both `Fapi_CreateSeal` calls is stored in `tpm_result` and not read again. -/
def GenerateSealedKey (env : Env) (key_reference : String) (w : World) :
    Outcome Bool × World :=
  match connectStore env w with
  | (some what, w1) => (Outcome.threw what, w1)
  | (none, w1) =>
    match GetRandomData env (List.replicate 16 0) 16 w1 with
    | (none, w2) => (Outcome.exited 1, w2)
    | (some symmetric_key, w2) =>
      let (_, w3) := Fapi_CreateSeal env w2 (c_str (sealed_data_path key_reference)) "noDa" ""
        kAuthenticationString symmetric_key
      match GetRandomData env (List.replicate 16 0) 16 w3 with
      | (none, w4) => (Outcome.exited 1, w4)
      | (some iv, w4) =>
        let (_, w5) := Fapi_CreateSeal env w4 (c_str (sealed_iv_path key_reference)) "noDa" ""
          kAuthenticationString iv
        (Outcome.ret true, w5)

/-- Result codes of `Common::AuthCallback`; their numeric values come from the
TSS headers. -/
inductive TSS2_RC where
  | TSS2_RC_SUCCESS
  | TSS2_FAPI_RC_BAD_VALUE
  deriving DecidableEq, Repr

/-- Function `Common::AuthCallback`, common.cpp:213-225.  A null `objectPath`
is `none`; `auth` is the value behind the output pointer before and after the
call. -/
def AuthCallback (objectPath : Option String) (_description : Option String)
    (auth : Option String) (_userData : Nat) : TSS2_RC × Option String :=
  match objectPath with
  | none => (TSS2_RC.TSS2_FAPI_RC_BAD_VALUE, auth)
  | some _ => (TSS2_RC.TSS2_RC_SUCCESS, some kAuthenticationString)

/-! ## The OpenSSL EVP interface -/

/-- The EVP functions the program calls, for the fixed cipher
`EVP_aes_256_cbc()`.  `Ctx` is the state behind an `EVP_CIPHER_CTX *`; `none`
is a null pointer for `EVP_CIPHER_CTX_new` and a return value other than 1 for
the others.  Key and IV are handed over as the bytes of the vector behind the
pointer; the functions are not told a length, and what the cipher reads past
the end of a vector shorter than its key size is not modelled. -/
structure Evp (Ctx : Type) where
  EVP_CIPHER_CTX_new : Option Ctx
  EVP_EncryptInit_ex : Ctx → List Nat → List Nat → Option Ctx
  EVP_EncryptUpdate : Ctx → List Nat → Option (Ctx × List Nat)
  EVP_EncryptFinal_ex : Ctx → Option (List Nat)
  EVP_DecryptInit_ex : Ctx → List Nat → List Nat → Option Ctx
  EVP_DecryptUpdate : Ctx → List Nat → Option (Ctx × List Nat)
  EVP_DecryptFinal_ex : Ctx → Option (List Nat)
  EVP_CIPHER_CTX_set_padding : Ctx → Nat → Ctx

/-- Function `strlen` on the zero-terminated `c_str()` of a `std::string`: the
number of bytes before the first zero byte. -/
def strlen (s : List Nat) : Nat :=
  (s.takeWhile (fun b => b != 0)).length

/-- The conversion of an `int` to `bool` in a `return` statement. -/
def intToBool (i : Int) : Bool :=
  i != 0

/-! ## data_encrypt.cpp -/

/-- Final state of `DataEncrypt::EncryptPlaintext`. -/
structure EncryptPlaintextResult where
  result : Outcome Bool
  ciphertext_string : List Nat
  world : World
  deriving DecidableEq, Repr

/-- Function `DataEncrypt::EncryptPlaintext`, data_encrypt.cpp:109-181.  The
array `ciphertext` is the bytes written from its start; its bound
`plaintext.length() * 2`, the `ciphertextCapacity` below, is not enforced by
the code, and the model lets every write through. -/
def EncryptPlaintext {Ctx : Type} (evp : Evp Ctx) (env : Env)
    (symmetric_key_reference : String) (plaintext : List Nat)
    (ciphertext_string : List Nat) (w : World) : EncryptPlaintextResult :=
  let u := UnsealKey env symmetric_key_reference [] [] w
  match u.result with
  | Outcome.threw what => ⟨Outcome.threw what, ciphertext_string, u.world⟩
  | Outcome.exited code => ⟨Outcome.exited code, ciphertext_string, u.world⟩
  | Outcome.ret false => ⟨Outcome.ret (intToBool (-1)), ciphertext_string, u.world⟩
  | Outcome.ret true =>
    match evp.EVP_CIPHER_CTX_new with
    | none => ⟨Outcome.ret false, ciphertext_string, u.world⟩
    | some ctx =>
      match evp.EVP_EncryptInit_ex ctx u.unsealed_key_data u.unsealed_iv_data with
      | none => ⟨Outcome.ret false, ciphertext_string, u.world⟩
      | some ctx1 =>
        match evp.EVP_EncryptUpdate ctx1 (plaintext.take (strlen plaintext)) with
        | none => ⟨Outcome.ret false, ciphertext_string, u.world⟩
        | some (ctx2, out1) =>
          match evp.EVP_EncryptFinal_ex (evp.EVP_CIPHER_CTX_set_padding ctx2 1) with
          | none => ⟨Outcome.ret false, ciphertext_string, u.world⟩
          | some out2 => ⟨Outcome.ret true, out1 ++ out2, u.world⟩

/-- Final state of `DataEncrypt::EncryptData` and `DataDecrypt::DecryptData`. -/
structure DataResult where
  result : Outcome Bool
  data_out : List Nat
  world : World
  deriving DecidableEq, Repr

/-- Function `DataEncrypt::EncryptData`, data_encrypt.cpp:76-101.  The `catch`
clause takes a `std::runtime_error`; `exit` is not an exception. -/
def EncryptData {Ctx : Type} (evp : Evp Ctx) (env : Env) (data_in : List Nat)
    (data_out : List Nat) (key_reference : String) (w : World) : DataResult :=
  match GenerateSealedKey env key_reference w with
  | (Outcome.threw _, w1) => ⟨Outcome.ret false, data_out, w1⟩
  | (Outcome.exited code, w1) => ⟨Outcome.exited code, data_out, w1⟩
  | (Outcome.ret false, w1) => ⟨Outcome.ret false, data_out, w1⟩
  | (Outcome.ret true, w1) =>
    let r := EncryptPlaintext evp env key_reference data_in data_out w1
    match r.result with
    | Outcome.threw _ => ⟨Outcome.ret false, r.ciphertext_string, r.world⟩
    | Outcome.exited code => ⟨Outcome.exited code, r.ciphertext_string, r.world⟩
    | Outcome.ret false => ⟨Outcome.ret false, r.ciphertext_string, r.world⟩
    | Outcome.ret true => ⟨Outcome.ret true, r.ciphertext_string, r.world⟩

/-! ## data_decrypt.cpp -/

/-- Final state of `DataDecrypt::DecryptCiphertext`: the returned `int` and
the bytes written from the start of the caller's `plaintext` array. -/
structure DecryptCiphertextResult where
  result : Outcome Int
  plaintext : List Nat
  world : World
  deriving DecidableEq, Repr

/-- Function `DataDecrypt::DecryptCiphertext`, data_decrypt.cpp:87-155. -/
def DecryptCiphertext {Ctx : Type} (evp : Evp Ctx) (env : Env) (ciphertext : List Nat)
    (symmetric_key_reference : String) (w : World) : DecryptCiphertextResult :=
  let u := UnsealKey env symmetric_key_reference [] [] w
  match u.result with
  | Outcome.threw what => ⟨Outcome.threw what, [], u.world⟩
  | Outcome.exited code => ⟨Outcome.exited code, [], u.world⟩
  | Outcome.ret false => ⟨Outcome.ret (-1), [], u.world⟩
  | Outcome.ret true =>
    match evp.EVP_CIPHER_CTX_new with
    | none => ⟨Outcome.ret (-1), [], u.world⟩
    | some ctx =>
      match evp.EVP_DecryptInit_ex ctx u.unsealed_key_data u.unsealed_iv_data with
      | none => ⟨Outcome.ret (-1), [], u.world⟩
      | some ctx1 =>
        match evp.EVP_DecryptUpdate ctx1 ciphertext with
        | none => ⟨Outcome.ret (-1), [], u.world⟩
        | some (ctx2, out1) =>
          match evp.EVP_DecryptFinal_ex (evp.EVP_CIPHER_CTX_set_padding ctx2 1) with
          | none => ⟨Outcome.ret (-1), out1, u.world⟩
          | some out2 =>
            ⟨Outcome.ret ((out1.length : Int) + (out2.length : Int)), out1 ++ out2, u.world⟩

/-- Function `DataDecrypt::DecryptData`, data_decrypt.cpp:61-79.  There is no
`try` block: what `DecryptCiphertext` throws leaves `DecryptData`. -/
def DecryptData {Ctx : Type} (evp : Evp Ctx) (env : Env) (data_in : List Nat)
    (data_out : List Nat) (key_reference : String) (w : World) : DataResult :=
  let r := DecryptCiphertext evp env data_in key_reference w
  match r.result with
  | Outcome.threw what => ⟨Outcome.threw what, data_out, r.world⟩
  | Outcome.exited code => ⟨Outcome.exited code, data_out, r.world⟩
  | Outcome.ret plaintext_length =>
    if plaintext_length == -1 then ⟨Outcome.ret false, data_out, r.world⟩
    else ⟨Outcome.ret true, r.plaintext.take plaintext_length.toNat, r.world⟩

/-! ## A small cipher for concrete runs

A byte-shift cipher with 16-byte blocks and PKCS#7 padding behind the `Evp`
interface.  Like the OpenSSL functions it receives key and IV without a length
and never rejects them. -/

/-- Context of the shift cipher. -/
structure ShiftCtx where
  shift : Nat
  pending : List Nat
  padding : Nat
  deriving DecidableEq, Repr

/-- Bytes are shifted up on encryption. -/
def shiftUp (k : Nat) (bs : List Nat) : List Nat :=
  bs.map (fun b => (b + k) % 256)

/-- Bytes are shifted back on decryption. -/
def shiftDown (k : Nat) (bs : List Nat) : List Nat :=
  bs.map (fun b => (b + (256 - k % 256)) % 256)

/-- Strip PKCS#7 padding from a decrypted final block. -/
def unpad (block : List Nat) : Option (List Nat) :=
  let n := block.getLastD 0
  if block.length = 16 ∧ 1 ≤ n ∧ n ≤ 16 ∧ block.drop (16 - n) = List.replicate n n then
    some (block.take (16 - n))
  else none

/-- The shift cipher. -/
def shiftCipher : Evp ShiftCtx where
  EVP_CIPHER_CTX_new := some ⟨0, [], 1⟩
  EVP_EncryptInit_ex := fun ctx key iv => some { ctx with shift := (key.sum + iv.sum) % 256 }
  EVP_EncryptUpdate := fun ctx inp =>
    let data := ctx.pending ++ inp
    let n := data.length / 16 * 16
    some ({ ctx with pending := data.drop n }, shiftUp ctx.shift (data.take n))
  EVP_EncryptFinal_ex := fun ctx =>
    let n := 16 - ctx.pending.length
    some (shiftUp ctx.shift (ctx.pending ++ List.replicate n n))
  EVP_DecryptInit_ex := fun ctx key iv => some { ctx with shift := (key.sum + iv.sum) % 256 }
  EVP_DecryptUpdate := fun ctx inp =>
    let data := ctx.pending ++ inp
    let n := if data.length % 16 = 0 then data.length - 16 else data.length / 16 * 16
    some ({ ctx with pending := data.drop n }, shiftDown ctx.shift (data.take n))
  EVP_DecryptFinal_ex := fun ctx => unpad (shiftDown ctx.shift ctx.pending)
  EVP_CIPHER_CTX_set_padding := fun ctx pad => { ctx with padding := pad }

/-- The bytes the entropy device of `calmEnv seed` delivers for a request of `n`. -/
def calmBytes (seed n : Nat) : List Nat :=
  (List.range n).map (fun i => (seed + i) % 256)

/-- An environment in which every outside call succeeds and the entropy device
delivers the bytes `seed, seed + 1, ...` in full. -/
def calmEnv (seed : Nat) : Env where
  ok := fun _ _ => true
  entropy := fun _ n => some (calmBytes seed n)

/-- A world with nothing sealed, no marker file and no open session. -/
def freshWorld : World :=
  ⟨false, [], 0, []⟩

/-- An environment like `calmEnv 7` except that the calls selected by `refused`
report failure. -/
def refusing (refused : Call → Bool) : Env where
  ok := fun _ c => !refused c
  entropy := (calmEnv 7).entropy

/-- Selects the `Fapi_Unseal` calls. -/
def isUnseal : Call → Bool
  | Call.fapiUnseal _ => true
  | _ => false

/-- Selects the `Fapi_CreateSeal` calls. -/
def isCreateSeal : Call → Bool
  | Call.fapiCreateSeal _ _ _ _ _ => true
  | _ => false

/-- The 11 bytes `hello world`. -/
def helloWorld : List Nat :=
  [104, 101, 108, 108, 111, 32, 119, 111, 114, 108, 100]

/-- The 11 bytes `hello`, a zero byte, `world`. -/
def helloZeroWorld : List Nat :=
  [104, 101, 108, 108, 111, 0, 119, 111, 114, 108, 100]

/-- Run of `EncryptData` on `helloZeroWorld` under reference `alpha`, first use
of the store. -/
def encryptedHelloZeroWorld : DataResult :=
  EncryptData shiftCipher (calmEnv 7) helloZeroWorld [] "alpha" freshWorld

/-- The world after `GenerateSealedKey("alpha")` on first use of the store. -/
def worldWithAlpha : World :=
  (GenerateSealedKey (calmEnv 7) "alpha" freshWorld).2

/-- The calls made between world `w` and a later world `w'`. -/
def callsSince (w w' : World) : List Call :=
  w'.trace.drop w.trace.length

/-- The paths of the `Fapi_CreateSeal` calls of a trace, in call order. -/
def sealPaths : List Call → List String
  | [] => []
  | Call.fapiCreateSeal path _ _ _ _ :: t => path :: sealPaths t
  | _ :: t => sealPaths t

/-- The paths of the `Fapi_Unseal` calls of a trace, in call order. -/
def unsealPaths : List Call → List String
  | [] => []
  | Call.fapiUnseal path :: t => path :: unsealPaths t
  | _ :: t => unsealPaths t

/-- The entropy requests and seal calls of a trace, in call order. -/
def materialCalls : List Call → List Call
  | [] => []
  | Call.getRandom n :: t => Call.getRandom n :: materialCalls t
  | Call.fapiCreateSeal path type policyPath authValue data :: t =>
      Call.fapiCreateSeal path type policyPath authValue data :: materialCalls t
  | _ :: t => materialCalls t

/-- Whether `DecryptCiphertext` with this key and IV gets as far as
`EVP_DecryptFinal_ex`, and that call reports failure. -/
def decryptFinalFails {Ctx : Type} (evp : Evp Ctx) (key iv ciphertext : List Nat) : Bool :=
  match evp.EVP_CIPHER_CTX_new with
  | none => false
  | some ctx =>
    match evp.EVP_DecryptInit_ex ctx key iv with
    | none => false
    | some ctx1 =>
      match evp.EVP_DecryptUpdate ctx1 ciphertext with
      | none => false
      | some (ctx2, _) =>
        (evp.EVP_DecryptFinal_ex (evp.EVP_CIPHER_CTX_set_padding ctx2 1)).isNone

/-- The run of EVP calls in `EncryptPlaintext`: new, init, one update, final. -/
def Evp.encryptRun {Ctx : Type} (evp : Evp Ctx) (key iv input : List Nat) :
    Option (List Nat) :=
  match evp.EVP_CIPHER_CTX_new with
  | none => none
  | some ctx =>
    match evp.EVP_EncryptInit_ex ctx key iv with
    | none => none
    | some ctx1 =>
      match evp.EVP_EncryptUpdate ctx1 input with
      | none => none
      | some (ctx2, out1) =>
        match evp.EVP_EncryptFinal_ex (evp.EVP_CIPHER_CTX_set_padding ctx2 1) with
        | none => none
        | some out2 => some (out1 ++ out2)

/-- The run of EVP calls in `DecryptCiphertext`: new, init, one update, final. -/
def Evp.decryptRun {Ctx : Type} (evp : Evp Ctx) (key iv input : List Nat) :
    Option (List Nat) :=
  match evp.EVP_CIPHER_CTX_new with
  | none => none
  | some ctx =>
    match evp.EVP_DecryptInit_ex ctx key iv with
    | none => none
    | some ctx1 =>
      match evp.EVP_DecryptUpdate ctx1 input with
      | none => none
      | some (ctx2, out1) =>
        match evp.EVP_DecryptFinal_ex (evp.EVP_CIPHER_CTX_set_padding ctx2 1) with
        | none => none
        | some out2 => some (out1 ++ out2)

/-- A world in which the key of `alpha` is sealed and its IV is not. -/
def worldWithoutIv : World :=
  ⟨true, [("/HS/SRK/alpha", [1, 2, 3])], 0, []⟩

/-! ## Reset, provisioning and session bookkeeping -/

/-- The number of `Fapi_Provision` calls in a trace. -/
def provisionCalls (t : List Call) : Nat :=
  t.count Call.fapiProvision

/-- The number of `Fapi_Finalize` calls in a trace. -/
def finalizeCalls (t : List Call) : Nat :=
  t.count Call.fapiFinalize

/-- The size of the array `ciphertext` in `EncryptPlaintext`,
data_encrypt.cpp:148. -/
def ciphertextCapacity (plaintext : List Nat) : Nat :=
  plaintext.length * 2

/-- The size of the array `plaintext` in `DecryptData`, data_decrypt.cpp:64. -/
def plaintextCapacity (data_in : List Nat) : Nat :=
  data_in.length

/-- The three bytes `abc`. -/
def abc : List Nat :=
  [97, 98, 99]

/-- A reference with a NUL character: `a`, NUL, `b`. -/
def nulReference : String :=
  String.mk ['a', Char.ofNat 0, 'b']

/-- An environment in which every call succeeds and every read of the entropy
device delivers four bytes only. -/
def shortReads : Env where
  ok := fun _ _ => true
  entropy := fun _ _ => some [201, 202, 203, 204]

/-- Value of `sealPaths` on two traces one after the other. -/
theorem sealPaths_append (a b : List Call) :
    sealPaths (a ++ b) = sealPaths a ++ sealPaths b := by
  induction a with
  | nil => rfl
  | cons c t ih => cases c <;> simp [sealPaths, ih]

/-- Value of `unsealPaths` on two traces one after the other. -/
theorem unsealPaths_append (a b : List Call) :
    unsealPaths (a ++ b) = unsealPaths a ++ unsealPaths b := by
  induction a with
  | nil => rfl
  | cons c t ih => cases c <;> simp [unsealPaths, ih]

/-- Value of `materialCalls` on two traces one after the other. -/
theorem materialCalls_append (a b : List Call) :
    materialCalls (a ++ b) = materialCalls a ++ materialCalls b := by
  induction a with
  | nil => rfl
  | cons c t ih => cases c <;> simp [materialCalls, ih]

/-- The connection block only appends calls to the trace, none of them a seal,
an unseal or an entropy request. -/
theorem connectStore_calls (env : Env) (w : World) :
    ∃ t, (connectStore env w).2.trace = w.trace ++ t ∧ sealPaths t = [] ∧
      unsealPaths t = [] ∧ materialCalls t = [] := by
  simp only [connectStore, Fapi_Initialize, Fapi_SetAuthCB, Fapi_Provision, openMarker,
    World.call]
  split_ifs <;> simp only [List.append_assoc] <;> exact ⟨_, rfl, rfl, rfl, rfl⟩

/-- The calls of `GenerateSealedKey`: those of the connection block, then a
front piece of entropy request, key seal, entropy request, IV seal. -/
theorem GenerateSealedKey_calls (env : Env) (key_reference : String) (w : World) :
    ∃ t u, (GenerateSealedKey env key_reference w).2.trace = w.trace ++ (t ++ u) ∧
      sealPaths t = [] ∧ unsealPaths t = [] ∧ materialCalls t = [] ∧
      ((u = [] ∧ ∃ what, (GenerateSealedKey env key_reference w).1 = Outcome.threw what) ∨
        (u = [Call.getRandom 16] ∧
          (GenerateSealedKey env key_reference w).1 = Outcome.exited 1) ∨
        (∃ k, u = [Call.getRandom 16,
          Call.fapiCreateSeal (c_str (sealed_data_path key_reference)) "noDa" ""
            kAuthenticationString k,
          Call.getRandom 16] ∧
          (GenerateSealedKey env key_reference w).1 = Outcome.exited 1) ∨
        (∃ k iv, u = [Call.getRandom 16,
          Call.fapiCreateSeal (c_str (sealed_data_path key_reference)) "noDa" ""
            kAuthenticationString k,
          Call.getRandom 16,
          Call.fapiCreateSeal (c_str (sealed_iv_path key_reference)) "noDa" "" kAuthenticationString
            iv] ∧
          (GenerateSealedKey env key_reference w).1 = Outcome.ret true)) := by
  obtain ⟨t, ht, hs, hu, hm⟩ := connectStore_calls env w
  refine ⟨t, ?_⟩
  rcases hcs : connectStore env w with ⟨r, w1⟩
  simp only [GenerateSealedKey, hcs]
  rw [hcs] at ht
  simp only at ht
  cases r with
  | some what =>
    exact ⟨[], by simp [ht], hs, hu, hm, Or.inl ⟨rfl, what, rfl⟩⟩
  | none =>
    simp only [GetRandomData, Fapi_CreateSeal, World.call]
    cases h1 : env.entropy w1.trace 16 with
    | none =>
      exact ⟨[Call.getRandom 16], by simp [ht], hs, hu, hm, Or.inr (Or.inl ⟨rfl, rfl⟩)⟩
    | some k =>
      simp only []
      cases h2 : env.entropy (w1.trace ++ [Call.getRandom 16] ++
          [Call.fapiCreateSeal (c_str (sealed_data_path key_reference)) "noDa" ""
            kAuthenticationString
            (readInto (List.replicate 16 0) 16 k)]) 16 with
      | none =>
        refine ⟨_, ?_, hs, hu, hm,
          Or.inr (Or.inr (Or.inl ⟨readInto (List.replicate 16 0) 16 k, rfl, rfl⟩))⟩
        simp [ht]
      | some iv =>
        refine ⟨_, ?_, hs, hu, hm,
          Or.inr (Or.inr (Or.inr ⟨readInto (List.replicate 16 0) 16 k,
            readInto (List.replicate 16 0) 16 iv, rfl, rfl⟩))⟩
        simp [ht]

/-- The calls of `UnsealKey`: those of the connection block, then a front
piece of key unseal, IV unseal. -/
theorem UnsealKey_calls (env : Env) (key_reference : String)
    (unsealed_key_data unsealed_iv_data : List Nat) (w : World) :
    ∃ t u, (UnsealKey env key_reference unsealed_key_data unsealed_iv_data w).world.trace
        = w.trace ++ (t ++ u) ∧
      sealPaths t = [] ∧ unsealPaths t = [] ∧ materialCalls t = [] ∧
      ((u = [] ∧ ∃ what,
          (UnsealKey env key_reference unsealed_key_data unsealed_iv_data w).result
            = Outcome.threw what) ∨
        (u = [Call.fapiUnseal (c_str (sealed_data_path key_reference))] ∧
          (UnsealKey env key_reference unsealed_key_data unsealed_iv_data w).result
            = Outcome.ret false) ∨
        (u = [Call.fapiUnseal (c_str (sealed_data_path key_reference)),
          Call.fapiUnseal (c_str (sealed_iv_path key_reference))] ∧
          ∃ b, (UnsealKey env key_reference unsealed_key_data unsealed_iv_data w).result
            = Outcome.ret b)) := by
  obtain ⟨t, ht, hs, hu, hm⟩ := connectStore_calls env w
  refine ⟨t, ?_⟩
  rcases hcs : connectStore env w with ⟨r, w1⟩
  simp only [UnsealKey, hcs]
  rw [hcs] at ht
  simp only at ht
  cases r with
  | some what =>
    exact ⟨[], by simp [ht], hs, hu, hm, Or.inl ⟨rfl, what, rfl⟩⟩
  | none =>
    simp only [Fapi_Unseal, World.call]
    cases h1 : (if env.ok w1.trace
          (Call.fapiUnseal (c_str (sealed_data_path key_reference))) = true
        then List.lookup (c_str (sealed_data_path key_reference)) w1.objects else none) with
    | none =>
      exact ⟨[Call.fapiUnseal (c_str (sealed_data_path key_reference))], by simp [ht], hs,
        hu, hm, Or.inr (Or.inl ⟨rfl, rfl⟩)⟩
    | some k =>
      simp only []
      cases h2 : (if env.ok
            (w1.trace ++ [Call.fapiUnseal (c_str (sealed_data_path key_reference))])
          (Call.fapiUnseal (c_str (sealed_iv_path key_reference))) = true
          then List.lookup (c_str (sealed_iv_path key_reference)) w1.objects else none) with
      | none =>
        refine ⟨_, ?_, hs, hu, hm, Or.inr (Or.inr ⟨rfl, false, rfl⟩)⟩
        simp [ht]
      | some iv =>
        refine ⟨_, ?_, hs, hu, hm, Or.inr (Or.inr ⟨rfl, true, rfl⟩)⟩
        simp [ht]

/-- A full read replaces the whole buffer. -/
theorem readInto_full (data_buffer got : List Nat) (length : Nat)
    (hgot : got.length = length) (hbuf : data_buffer.length = length) :
    readInto data_buffer length got = got := by
  subst hgot
  simp [readInto, List.drop_eq_nil_of_le, hbuf]

/-! ### The fault-free environment -/

/-- The list `calmBytes seed n` has `n` bytes. -/
theorem calmBytes_length (seed n : Nat) : (calmBytes seed n).length = n := by
  simp [calmBytes]

/-- With every call succeeding the connection block passes and leaves the
sealed objects alone. -/
theorem connectStore_calm (seed : Nat) (w : World) :
    ∃ w1, connectStore (calmEnv seed) w = (none, w1) ∧ w1.objects = w.objects := by
  cases hm : w.marker <;>
    simp [connectStore, Fapi_Initialize, Fapi_SetAuthCB, Fapi_Provision, openMarker,
      World.call, calmEnv, hm]

/-- The key path and the IV path of one reference differ. -/
theorem sealed_paths_differ (key_reference : String) :
    (sealed_data_path key_reference == sealed_iv_path key_reference) = false := by
  have h : sealed_data_path key_reference ≠ sealed_iv_path key_reference := by
    intro h
    have hl := congrArg String.length h
    simp only [sealed_iv_path, String.length_append] at hl
    have h3 : "_iv".length = 3 := by decide
    omega
  simpa using h

/-- With every call succeeding `GenerateSealedKey` seals the delivered bytes at
the key path and at the IV path. -/
theorem GenerateSealedKey_calm (seed : Nat) (key_reference : String) (w : World) :
    ∃ w1, GenerateSealedKey (calmEnv seed) key_reference w = (Outcome.ret true, w1) ∧
      w1.objects = (c_str (sealed_iv_path key_reference), calmBytes seed 16) ::
        (c_str (sealed_data_path key_reference), calmBytes seed 16) :: w.objects := by
  obtain ⟨w1, hc, ho⟩ := connectStore_calm seed w
  have hk : readInto (List.replicate 16 0) 16 (calmBytes seed 16) = calmBytes seed 16 :=
    readInto_full _ _ _ (calmBytes_length seed 16) (by simp)
  have he : ∀ t, (calmEnv seed).entropy t 16 = some (calmBytes seed 16) := fun _ => rfl
  have hok : ∀ t c, (calmEnv seed).ok t c = true := fun _ _ => rfl
  simp only [GenerateSealedKey, hc, GetRandomData, he, hk, Fapi_CreateSeal, World.call, hok]
  exact ⟨_, rfl, by simp [ho]⟩

/-- With every call succeeding `UnsealKey` returns as key and as IV the bytes
sealed last at the IV path and before that at the key path.  The two paths may
be one path, so the lemma is stated for equal bytes. -/
theorem UnsealKey_calm (seed : Nat) (key_reference : String)
    (unsealed_key_data unsealed_iv_data data : List Nat) (rest : List (String × List Nat))
    (w : World)
    (hw : w.objects = (c_str (sealed_iv_path key_reference), data) ::
      (c_str (sealed_data_path key_reference), data) :: rest) :
    ∃ w1, UnsealKey (calmEnv seed) key_reference unsealed_key_data unsealed_iv_data w
      = ⟨Outcome.ret true, data, data, w1⟩ := by
  obtain ⟨w1, hc, ho⟩ := connectStore_calm seed w
  have hok : ∀ t c, (calmEnv seed).ok t c = true := fun _ _ => rfl
  have hkey : List.lookup (c_str (sealed_data_path key_reference))
      ((c_str (sealed_iv_path key_reference), data) ::
        (c_str (sealed_data_path key_reference), data) :: rest) = some data := by
    cases h : c_str (sealed_data_path key_reference) == c_str (sealed_iv_path key_reference)
      <;> simp [List.lookup, h]
  have hiv : List.lookup (c_str (sealed_iv_path key_reference))
      ((c_str (sealed_iv_path key_reference), data) ::
        (c_str (sealed_data_path key_reference), data) :: rest) = some data := by
    simp [List.lookup]
  simp [UnsealKey, hc, Fapi_Unseal, World.call, hok, ho, hw, hkey, hiv]

/-- The connection block does not change the sealed objects. -/
theorem connectStore_objects (env : Env) (w : World) :
    (connectStore env w).2.objects = w.objects := by
  simp only [connectStore, Fapi_Initialize, Fapi_SetAuthCB, Fapi_Provision, openMarker,
    World.call]
  split_ifs <;> rfl

/-- A run of `UnsealKey` does not change the sealed objects. -/
theorem UnsealKey_objects (env : Env) (key_reference : String)
    (unsealed_key_data unsealed_iv_data : List Nat) (w : World) :
    (UnsealKey env key_reference unsealed_key_data unsealed_iv_data w).world.objects
      = w.objects := by
  have hc := connectStore_objects env w
  rcases hcs : connectStore env w with ⟨r, w1⟩
  rw [hcs] at hc
  simp only at hc
  cases r with
  | some what => simp [UnsealKey, hcs, hc]
  | none =>
    rcases h1 : Fapi_Unseal env w1 (c_str (sealed_data_path key_reference)) with ⟨k, w2⟩
    have hw2 : w2.objects = w1.objects := by
      have := congrArg (fun x => x.2.objects) h1
      simpa [Fapi_Unseal, World.call] using this.symm
    cases k with
    | none => simp [UnsealKey, hcs, h1, hw2, hc]
    | some key =>
      rcases h2 : Fapi_Unseal env w2 (c_str (sealed_iv_path key_reference)) with ⟨i, w3⟩
      have hw3 : w3.objects = w2.objects := by
        have := congrArg (fun x => x.2.objects) h2
        simpa [Fapi_Unseal, World.call] using this.symm
      cases i with
      | none => simp [UnsealKey, hcs, h1, h2, hw3, hw2, hc]
      | some iv => simp [UnsealKey, hcs, h1, h2, hw3, hw2, hc]

/-- The first `strlen` bytes are the bytes before the first zero byte. -/
theorem take_strlen (s : List Nat) : s.take (strlen s) = s.takeWhile (fun b => b != 0) := by
  induction s with
  | nil => rfl
  | cons b t ih =>
    by_cases hb : b = 0
    · simp [strlen, List.takeWhile, hb]
    · have hb' : (b != 0) = true := by simpa using hb
      simp only [strlen] at ih
      simp [strlen, List.takeWhile, hb', ih]

/-- A byte string with a zero byte is longer than its `strlen`. -/
theorem take_strlen_ne_of_zero (s : List Nat) (h : 0 ∈ s) : s.take (strlen s) ≠ s := by
  rw [take_strlen]
  intro heq
  have hall := List.takeWhile_eq_self_iff.mp heq 0 h
  simp at hall

/-- Result of `EncryptPlaintext` after a successful unseal, when the cipher run succeeds:
the ciphertext is that of the first `strlen` bytes. -/
theorem EncryptPlaintext_of_unsealed {Ctx : Type} (evp : Evp Ctx) (env : Env)
    (key_reference : String) (plaintext ciphertext_string key iv c : List Nat) (w w1 : World)
    (hu : UnsealKey env key_reference [] [] w = ⟨Outcome.ret true, key, iv, w1⟩)
    (henc : evp.encryptRun key iv (plaintext.take (strlen plaintext)) = some c) :
    EncryptPlaintext evp env key_reference plaintext ciphertext_string w
      = ⟨Outcome.ret true, c, w1⟩ := by
  unfold Evp.encryptRun at henc
  unfold EncryptPlaintext
  simp only [hu]
  cases hnew : evp.EVP_CIPHER_CTX_new with
  | none => simp [hnew] at henc
  | some ctx =>
    simp only [hnew] at henc ⊢
    cases hinit : evp.EVP_EncryptInit_ex ctx key iv with
    | none => simp [hinit] at henc
    | some ctx1 =>
      simp only [hinit] at henc ⊢
      cases hupd : evp.EVP_EncryptUpdate ctx1 (plaintext.take (strlen plaintext)) with
      | none => simp [hupd] at henc
      | some pr =>
        obtain ⟨ctx2, out1⟩ := pr
        simp only [hupd] at henc ⊢
        cases hfin : evp.EVP_EncryptFinal_ex (evp.EVP_CIPHER_CTX_set_padding ctx2 1) with
        | none => simp [hfin] at henc
        | some out2 =>
          simp only [hfin, Option.some.injEq] at henc
          simp [henc]

/-- Result of `DecryptCiphertext` after a successful unseal, when the cipher run succeeds. -/
theorem DecryptCiphertext_of_unsealed {Ctx : Type} (evp : Evp Ctx) (env : Env)
    (key_reference : String) (ciphertext key iv p : List Nat) (w w1 : World)
    (hu : UnsealKey env key_reference [] [] w = ⟨Outcome.ret true, key, iv, w1⟩)
    (hdec : evp.decryptRun key iv ciphertext = some p) :
    DecryptCiphertext evp env ciphertext key_reference w
      = ⟨Outcome.ret (p.length : Int), p, w1⟩ := by
  unfold Evp.decryptRun at hdec
  unfold DecryptCiphertext
  simp only [hu]
  cases hnew : evp.EVP_CIPHER_CTX_new with
  | none => simp [hnew] at hdec
  | some ctx =>
    simp only [hnew] at hdec ⊢
    cases hinit : evp.EVP_DecryptInit_ex ctx key iv with
    | none => simp [hinit] at hdec
    | some ctx1 =>
      simp only [hinit] at hdec ⊢
      cases hupd : evp.EVP_DecryptUpdate ctx1 ciphertext with
      | none => simp [hupd] at hdec
      | some pr =>
        obtain ⟨ctx2, out1⟩ := pr
        simp only [hupd] at hdec ⊢
        cases hfin : evp.EVP_DecryptFinal_ex (evp.EVP_CIPHER_CTX_set_padding ctx2 1) with
        | none => simp [hfin] at hdec
        | some out2 =>
          simp only [hfin, Option.some.injEq] at hdec
          subst hdec
          simp

/-- Result of `DecryptData` after a successful unseal, when the cipher run succeeds. -/
theorem DecryptData_of_unsealed {Ctx : Type} (evp : Evp Ctx) (env : Env)
    (key_reference : String) (data_in data_out key iv p : List Nat) (w w1 : World)
    (hu : UnsealKey env key_reference [] [] w = ⟨Outcome.ret true, key, iv, w1⟩)
    (hdec : evp.decryptRun key iv data_in = some p) :
    DecryptData evp env data_in data_out key_reference w = ⟨Outcome.ret true, p, w1⟩ := by
  have hd := DecryptCiphertext_of_unsealed evp env key_reference data_in key iv p w w1 hu hdec
  have hne : ((p.length : Int) == -1) = false := by
    simp only [beq_eq_false_iff_ne, ne_eq]
    omega
  simp [DecryptData, hd, hne]

/-- With every outside call succeeding and a cipher that inverts on this input,
`DecryptData` after `EncryptData` returns the first `strlen` bytes of the
plaintext. -/
theorem round_trip_calm {Ctx : Type} (evp : Evp Ctx) (seed : Nat)
    (data_in data_out data_out' c : List Nat) (key_reference : String) (w : World)
    (henc : evp.encryptRun (calmBytes seed 16) (calmBytes seed 16)
      (data_in.take (strlen data_in)) = some c)
    (hdec : evp.decryptRun (calmBytes seed 16) (calmBytes seed 16) c
      = some (data_in.take (strlen data_in))) :
    (EncryptData evp (calmEnv seed) data_in data_out key_reference w).result
      = Outcome.ret true ∧
    (EncryptData evp (calmEnv seed) data_in data_out key_reference w).data_out = c ∧
    (DecryptData evp (calmEnv seed)
      (EncryptData evp (calmEnv seed) data_in data_out key_reference w).data_out data_out'
      key_reference
      (EncryptData evp (calmEnv seed) data_in data_out key_reference w).world).result
      = Outcome.ret true ∧
    (DecryptData evp (calmEnv seed)
      (EncryptData evp (calmEnv seed) data_in data_out key_reference w).data_out data_out'
      key_reference
      (EncryptData evp (calmEnv seed) data_in data_out key_reference w).world).data_out
      = data_in.take (strlen data_in) := by
  obtain ⟨w1, hg, ho1⟩ := GenerateSealedKey_calm seed key_reference w
  obtain ⟨w2, hu2⟩ := UnsealKey_calm seed key_reference [] [] _ _ w1 ho1
  have ho2 : w2.objects = w1.objects := by
    have := UnsealKey_objects (calmEnv seed) key_reference [] [] w1
    rw [hu2] at this
    exact this
  obtain ⟨w3, hu3⟩ := UnsealKey_calm seed key_reference [] [] _ _ w2 (ho2.trans ho1)
  have he : EncryptData evp (calmEnv seed) data_in data_out key_reference w
      = ⟨Outcome.ret true, c, w2⟩ := by
    simp [EncryptData, hg, EncryptPlaintext_of_unsealed evp _ _ _ _ _ _ _ _ _ hu2 henc]
  rw [he]
  exact ⟨rfl, rfl, by rw [DecryptData_of_unsealed evp _ _ _ _ _ _ _ _ _ hu3 hdec],
    by rw [DecryptData_of_unsealed evp _ _ _ _ _ _ _ _ _ hu3 hdec]⟩

/-! ### Reset, provisioning and sessions -/

/-- Value of `finalizeCalls` on two traces one after the other. -/
theorem finalizeCalls_append (a b : List Call) :
    finalizeCalls (a ++ b) = finalizeCalls a + finalizeCalls b := by
  simp [finalizeCalls]

/-- The connection block appends its calls to the trace: at most one
provisioning call and no finalize call, no provisioning call at all when the
marker exists; the marker exists after a pass; a session is opened exactly when
`Fapi_Initialize` succeeds. -/
theorem connectStore_bookkeeping (env : Env) (w : World) :
    ∃ t, (connectStore env w).2.trace = w.trace ++ t ∧ provisionCalls t ≤ 1 ∧
      finalizeCalls t = 0 ∧
      (w.marker = true → provisionCalls t = 0 ∧ (connectStore env w).2.marker = true) ∧
      ((connectStore env w).1 = none → (connectStore env w).2.marker = true) ∧
      (connectStore env w).2.sessions
        = w.sessions + (if env.ok w.trace Call.fapiInitialize = true then 1 else 0) := by
  simp only [connectStore, Fapi_Initialize, Fapi_SetAuthCB, Fapi_Provision, openMarker,
    World.call]
  split_ifs <;> simp only [List.append_assoc] <;> refine ⟨_, rfl, ?_⟩ <;>
    simp_all [provisionCalls, finalizeCalls]

/-- After its connection block `GenerateSealedKey` makes no provisioning and no
finalize call and leaves marker and sessions alone. -/
theorem GenerateSealedKey_bookkeeping (env : Env) (key_reference : String) (w : World) :
    ∃ u, (GenerateSealedKey env key_reference w).2.trace
        = (connectStore env w).2.trace ++ u ∧
      provisionCalls u = 0 ∧ finalizeCalls u = 0 ∧
      (GenerateSealedKey env key_reference w).2.marker = (connectStore env w).2.marker ∧
      (GenerateSealedKey env key_reference w).2.sessions
        = (connectStore env w).2.sessions ∧
      ((GenerateSealedKey env key_reference w).1 = Outcome.ret true →
        (connectStore env w).1 = none) := by
  rcases hcs : connectStore env w with ⟨r, w1⟩
  simp only [GenerateSealedKey, hcs]
  cases r with
  | some what => exact ⟨[], by simp, rfl, rfl, rfl, rfl, by simp⟩
  | none =>
    simp only [GetRandomData, Fapi_CreateSeal, World.call]
    cases h1 : env.entropy w1.trace 16 with
    | none => exact ⟨[Call.getRandom 16], by simp, rfl, rfl, rfl, rfl, by simp⟩
    | some k =>
      simp only []
      cases h2 : env.entropy (w1.trace ++ [Call.getRandom 16] ++
          [Call.fapiCreateSeal (c_str (sealed_data_path key_reference)) "noDa" ""
            kAuthenticationString
            (readInto (List.replicate 16 0) 16 k)]) 16 with
      | none =>
        refine ⟨[Call.getRandom 16,
          Call.fapiCreateSeal (c_str (sealed_data_path key_reference)) "noDa" ""
            kAuthenticationString
            (readInto (List.replicate 16 0) 16 k), Call.getRandom 16], by simp, ?_, ?_,
          rfl, rfl, by simp⟩
        · simp [provisionCalls]
        · simp [finalizeCalls]
      | some iv =>
        refine ⟨[Call.getRandom 16,
          Call.fapiCreateSeal (c_str (sealed_data_path key_reference)) "noDa" ""
            kAuthenticationString
            (readInto (List.replicate 16 0) 16 k), Call.getRandom 16,
          Call.fapiCreateSeal (c_str (sealed_iv_path key_reference)) "noDa" "" kAuthenticationString
            (readInto (List.replicate 16 0) 16 iv)], by simp, ?_, ?_, rfl, rfl, by simp⟩
        · simp [provisionCalls]
        · simp [finalizeCalls]

/-- After its connection block `UnsealKey` makes no provisioning and no finalize
call and leaves marker and sessions alone. -/
theorem UnsealKey_bookkeeping (env : Env) (key_reference : String)
    (unsealed_key_data unsealed_iv_data : List Nat) (w : World) :
    ∃ u, (UnsealKey env key_reference unsealed_key_data unsealed_iv_data w).world.trace
        = (connectStore env w).2.trace ++ u ∧
      provisionCalls u = 0 ∧ finalizeCalls u = 0 ∧
      (UnsealKey env key_reference unsealed_key_data unsealed_iv_data w).world.marker
        = (connectStore env w).2.marker ∧
      (UnsealKey env key_reference unsealed_key_data unsealed_iv_data w).world.sessions
        = (connectStore env w).2.sessions := by
  rcases hcs : connectStore env w with ⟨r, w1⟩
  simp only [UnsealKey, hcs]
  cases r with
  | some what => exact ⟨[], by simp, rfl, rfl, rfl, rfl⟩
  | none =>
    simp only [Fapi_Unseal, World.call]
    cases h1 : (if env.ok w1.trace
          (Call.fapiUnseal (c_str (sealed_data_path key_reference))) = true
        then List.lookup (c_str (sealed_data_path key_reference)) w1.objects else none) with
    | none =>
      exact ⟨[Call.fapiUnseal (c_str (sealed_data_path key_reference))], by simp,
        by simp [provisionCalls], by simp [finalizeCalls], rfl, rfl⟩
    | some k =>
      simp only []
      cases h2 : (if env.ok
            (w1.trace ++ [Call.fapiUnseal (c_str (sealed_data_path key_reference))])
          (Call.fapiUnseal (c_str (sealed_iv_path key_reference))) = true
          then List.lookup (c_str (sealed_iv_path key_reference)) w1.objects else none) with
      | none =>
        exact ⟨[Call.fapiUnseal (c_str (sealed_data_path key_reference)),
          Call.fapiUnseal (c_str (sealed_iv_path key_reference))], by simp,
          by simp [provisionCalls], by simp [finalizeCalls], rfl, rfl⟩
      | some iv =>
        exact ⟨[Call.fapiUnseal (c_str (sealed_data_path key_reference)),
          Call.fapiUnseal (c_str (sealed_iv_path key_reference))], by simp,
          by simp [provisionCalls], by simp [finalizeCalls], rfl, rfl⟩

/-- The calls since `w` when the later trace extends that of `w`. -/
theorem callsSince_of_trace (w w' : World) (t : List Call) (h : w'.trace = w.trace ++ t) :
    callsSince w w' = t := by
  simp [callsSince, h]

/-- A string without a NUL character is its own C string. -/
theorem c_str_of_no_nul (s : String) (h : Char.ofNat 0 ∉ s.toList) : c_str s = s := by
  have hall : s.toList.takeWhile (fun ch => ch != Char.ofNat 0) = s.toList := by
    rw [List.takeWhile_eq_self_iff]
    intro ch hch
    have hne : ch ≠ Char.ofNat 0 := fun heq => h (heq ▸ hch)
    simpa using hne
  simp only [c_str, hall]
  rfl

/-- When the unseal succeeded and the cipher ran, with an update output of whole
blocks and a final output of one block, the ciphertext is the update output
followed by the final output, a multiple of 16 bytes and at least 16. -/
theorem ciphertext_length_of_cipher_run {Ctx : Type} (evp : Evp Ctx) (env : Env)
    (key_reference : String) (plaintext ciphertext_string key iv out1 out2 : List Nat)
    (w w1 : World) (ctx ctx1 ctx2 : Ctx)
    (hu : UnsealKey env key_reference [] [] w = ⟨Outcome.ret true, key, iv, w1⟩)
    (hnew : evp.EVP_CIPHER_CTX_new = some ctx)
    (hinit : evp.EVP_EncryptInit_ex ctx key iv = some ctx1)
    (hupd : evp.EVP_EncryptUpdate ctx1 (plaintext.take (strlen plaintext)) = some (ctx2, out1))
    (hfin : evp.EVP_EncryptFinal_ex (evp.EVP_CIPHER_CTX_set_padding ctx2 1) = some out2)
    (hlen1 : 16 ∣ out1.length) (hlen2 : out2.length = 16) :
    EncryptPlaintext evp env key_reference plaintext ciphertext_string w
      = ⟨Outcome.ret true, out1 ++ out2, w1⟩ ∧
    16 ∣ (out1 ++ out2).length ∧ 16 ≤ (out1 ++ out2).length := by
  refine ⟨?_, ?_, ?_⟩
  · simp [EncryptPlaintext, hu, hnew, hinit, hupd, hfin]
  · rw [List.length_append, hlen2]
    exact Dvd.dvd.add hlen1 (dvd_refl 16)
  · rw [List.length_append, hlen2]
    omega

/-- The key path of `R ++ "_iv"` is the IV path of `R`. -/
theorem key_path_of_iv_reference (key_reference : String) :
    sealed_data_path (key_reference ++ "_iv") = sealed_iv_path key_reference := by
  simp [sealed_data_path, sealed_iv_path, String.append_assoc]

/-- Function `UnsealKey` returns, rather than throws, exactly when its connection
block passes. -/
theorem UnsealKey_returns_iff_connected (env : Env) (key_reference : String)
    (unsealed_key_data unsealed_iv_data : List Nat) (w : World) :
    (connectStore env w).1 = none ↔
      ∃ b, (UnsealKey env key_reference unsealed_key_data unsealed_iv_data w).result
        = Outcome.ret b := by
  rcases hcs : connectStore env w with ⟨r, w1⟩
  cases r with
  | some what => simp [UnsealKey, hcs]
  | none =>
    rcases h1 : Fapi_Unseal env w1 (c_str (sealed_data_path key_reference)) with ⟨k, w2⟩
    cases k with
    | none => simp [UnsealKey, hcs, h1]
    | some key =>
      rcases h2 : Fapi_Unseal env w2 (c_str (sealed_iv_path key_reference)) with ⟨i, w3⟩
      cases i with
      | none => simp [UnsealKey, hcs, h1, h2]
      | some iv => simp [UnsealKey, hcs, h1, h2]

/-- For a reference without a NUL character both paths are their own C strings. -/
theorem nul_free_paths (key_reference : String) (h : Char.ofNat 0 ∉ key_reference.toList) :
    c_str (sealed_data_path key_reference) = sealed_data_path key_reference ∧
    c_str (sealed_iv_path key_reference) = sealed_iv_path key_reference := by
  have h1 : Char.ofNat 0 ∉ "/HS/SRK/".toList := by decide
  have h2 : Char.ofNat 0 ∉ "_iv".toList := by decide
  constructor
  · apply c_str_of_no_nul
    simp only [sealed_data_path, String.toList, String.data_append, List.mem_append]
    rintro (hm | hm)
    · exact h1 hm
    · exact h hm
  · apply c_str_of_no_nul
    simp only [sealed_iv_path, sealed_data_path, String.toList, String.data_append,
      List.mem_append]
    rintro ((hm | hm) | hm)
    · exact h1 hm
    · exact h hm
    · exact h2 hm

/-- The 16-byte buffer keeps its 16 bytes whatever `read` delivers. -/
theorem readInto_length (got : List Nat) :
    (readInto (List.replicate 16 0) 16 got).length = 16 := by
  simp only [readInto, List.length_append, List.length_take, List.length_drop,
    List.length_replicate]
  omega

/-- Once connected, with both reads of the entropy device returning,
`GenerateSealedKey` returns true and its entropy requests and seal calls are:
request 16 bytes, seal the key buffer at the key path, request 16 bytes, seal
the IV buffer at the IV path. -/
theorem GenerateSealedKey_material (env : Env) (key_reference : String)
    (w w1 : World) (gotKey gotIv : List Nat)
    (hconnect : connectStore env w = (none, w1))
    (hkey : env.entropy w1.trace 16 = some gotKey)
    (hiv : env.entropy (w1.trace ++ [Call.getRandom 16] ++
      [Call.fapiCreateSeal (c_str (sealed_data_path key_reference)) "noDa" ""
        kAuthenticationString (readInto (List.replicate 16 0) 16 gotKey)]) 16 = some gotIv) :
    (GenerateSealedKey env key_reference w).1 = Outcome.ret true ∧
    materialCalls (callsSince w (GenerateSealedKey env key_reference w).2) =
      [Call.getRandom 16,
       Call.fapiCreateSeal (c_str (sealed_data_path key_reference)) "noDa" ""
         kAuthenticationString (readInto (List.replicate 16 0) 16 gotKey),
       Call.getRandom 16,
       Call.fapiCreateSeal (c_str (sealed_iv_path key_reference)) "noDa" ""
         kAuthenticationString (readInto (List.replicate 16 0) 16 gotIv)] := by
  obtain ⟨t, ht, -, -, hm⟩ := connectStore_calls env w
  rw [hconnect] at ht
  simp only at ht
  simp only [GenerateSealedKey, hconnect, GetRandomData, hkey, Fapi_CreateSeal,
    World.call, hiv]
  refine ⟨trivial, ?_⟩
  simp only [callsSince, ht, List.append_assoc, List.drop_left, materialCalls_append, hm,
    List.nil_append]
  rfl

/-- Once connected, `UnsealKey` unseals at the key path and, when that unseal
delivered bytes, at the IV path. -/
theorem UnsealKey_unsealPaths (env : Env) (key_reference : String)
    (unsealed_key_data unsealed_iv_data : List Nat) (w w1 : World)
    (hconnect : connectStore env w = (none, w1)) :
    unsealPaths (callsSince w
        (UnsealKey env key_reference unsealed_key_data unsealed_iv_data w).world)
      = if (Fapi_Unseal env w1 (c_str (sealed_data_path key_reference))).1 = none
        then [c_str (sealed_data_path key_reference)]
        else [c_str (sealed_data_path key_reference), c_str (sealed_iv_path key_reference)] := by
  obtain ⟨t, ht, -, hu, -⟩ := connectStore_calls env w
  rw [hconnect] at ht
  simp only at ht
  rcases h1 : Fapi_Unseal env w1 (c_str (sealed_data_path key_reference)) with ⟨k, w2⟩
  have ht2 : w2.trace = w1.trace ++ [Call.fapiUnseal (c_str (sealed_data_path key_reference))] := by
    have := congrArg (fun p => p.2.trace) h1
    simpa [Fapi_Unseal, World.call] using this.symm
  cases k with
  | none =>
    simp [UnsealKey, hconnect, h1, callsSince, ht2, ht, unsealPaths_append, hu, unsealPaths]
  | some key =>
    rcases h2 : Fapi_Unseal env w2 (c_str (sealed_iv_path key_reference)) with ⟨i, w3⟩
    have ht3 : w3.trace = w2.trace ++ [Call.fapiUnseal (c_str (sealed_iv_path key_reference))] := by
      have := congrArg (fun p => p.2.trace) h2
      simpa [Fapi_Unseal, World.call] using this.symm
    cases i with
    | none =>
      simp [UnsealKey, hconnect, h1, h2, callsSince, ht3, ht2, ht, unsealPaths_append, hu,
        unsealPaths]
    | some iv =>
      simp [UnsealKey, hconnect, h1, h2, callsSince, ht3, ht2, ht, unsealPaths_append, hu,
        unsealPaths]

/-- Once connected, with the first read of the entropy device returning,
`GenerateSealedKey` seals at the key path first. -/
theorem GenerateSealedKey_seals_key_first (env : Env) (key_reference : String)
    (w w1 : World) (got : List Nat)
    (hconnect : connectStore env w = (none, w1))
    (hkey : env.entropy w1.trace 16 = some got) :
    (sealPaths (callsSince w (GenerateSealedKey env key_reference w).2)).head?
      = some (c_str (sealed_data_path key_reference)) := by
  obtain ⟨t, ht, hs, -, -⟩ := connectStore_calls env w
  rw [hconnect] at ht
  simp only at ht
  simp only [GenerateSealedKey, hconnect, GetRandomData, hkey, Fapi_CreateSeal, World.call]
  cases h2 : env.entropy (w1.trace ++ [Call.getRandom 16] ++
      [Call.fapiCreateSeal (c_str (sealed_data_path key_reference)) "noDa" ""
        kAuthenticationString (readInto (List.replicate 16 0) 16 got)]) 16 with
  | none => simp [callsSince, ht, sealPaths_append, hs, sealPaths]
  | some iv => simp [callsSince, ht, sealPaths_append, hs, sealPaths]

/-- C1, failing on the code: let every store and entropy call succeed, let no
key be generated after the encryption, and let the cipher invert what it
encrypted.  For every plaintext that contains a zero byte `EncryptData`
succeeds, and `DecryptData` on its ciphertext succeeds and returns the bytes
before the first zero byte, which is not the plaintext: `EncryptPlaintext`
measures its input with `strlen`. -/
theorem C1_round_trip_stops_at_zero_byte {Ctx : Type} (evp : Evp Ctx) (seed : Nat)
    (data_in data_out data_out' c : List Nat) (key_reference : String) (w : World)
    (henc : evp.encryptRun (calmBytes seed 16) (calmBytes seed 16)
      (data_in.take (strlen data_in)) = some c)
    (hdec : evp.decryptRun (calmBytes seed 16) (calmBytes seed 16) c
      = some (data_in.take (strlen data_in)))
    (hzero : 0 ∈ data_in) :
    (EncryptData evp (calmEnv seed) data_in data_out key_reference w).result
      = Outcome.ret true ∧
    (DecryptData evp (calmEnv seed)
      (EncryptData evp (calmEnv seed) data_in data_out key_reference w).data_out data_out'
      key_reference
      (EncryptData evp (calmEnv seed) data_in data_out key_reference w).world).result
      = Outcome.ret true ∧
    (DecryptData evp (calmEnv seed)
      (EncryptData evp (calmEnv seed) data_in data_out key_reference w).data_out data_out'
      key_reference
      (EncryptData evp (calmEnv seed) data_in data_out key_reference w).world).data_out
      = data_in.takeWhile (fun b => b != 0) ∧
    (DecryptData evp (calmEnv seed)
      (EncryptData evp (calmEnv seed) data_in data_out key_reference w).data_out data_out'
      key_reference
      (EncryptData evp (calmEnv seed) data_in data_out key_reference w).world).data_out
      ≠ data_in := by
  obtain ⟨h1, -, h3, h4⟩ :=
    round_trip_calm evp seed data_in data_out data_out' c key_reference w henc hdec
  refine ⟨h1, h3, ?_, ?_⟩
  · rw [h4, take_strlen]
  · rw [h4]
    exact take_strlen_ne_of_zero data_in hzero

/-- C1 at a concrete input: the 11 bytes `hello\0world` under reference `alpha`
on first use of the store come back as the 5 bytes `hello`. -/
theorem C1_round_trip_stops_at_zero_byte_witness :
    encryptedHelloZeroWorld.result = Outcome.ret true ∧
    (DecryptData shiftCipher (calmEnv 7) encryptedHelloZeroWorld.data_out []
      "alpha" encryptedHelloZeroWorld.world).result = Outcome.ret true ∧
    (DecryptData shiftCipher (calmEnv 7) encryptedHelloZeroWorld.data_out []
      "alpha" encryptedHelloZeroWorld.world).data_out = [104, 101, 108, 108, 111] ∧
    (DecryptData shiftCipher (calmEnv 7) encryptedHelloZeroWorld.data_out []
      "alpha" encryptedHelloZeroWorld.world).data_out ≠ helloZeroWorld :=
  C1_round_trip_stops_at_zero_byte shiftCipher 7 helloZeroWorld [] []
    [56, 53, 60, 60, 63, 219, 219, 219, 219, 219, 219, 219, 219, 219, 219, 219]
    "alpha" freshWorld (by decide) (by decide) (by decide)

/-- C2, failing on the code: when `UnsealKey` returns false inside
`EncryptPlaintext`, the `return -1` of that `bool` function is `true`, so
`EncryptData` reports success and leaves `data_out` as it was. -/
theorem C2_unseal_failure_reported_as_success {Ctx : Type} (evp : Evp Ctx) (env : Env)
    (data_in data_out : List Nat) (key_reference : String) (w : World)
    (hgen : (GenerateSealedKey env key_reference w).1 = Outcome.ret true)
    (hunseal : (UnsealKey env key_reference [] []
      (GenerateSealedKey env key_reference w).2).result = Outcome.ret false) :
    (EncryptData evp env data_in data_out key_reference w).result = Outcome.ret true ∧
    (EncryptData evp env data_in data_out key_reference w).data_out = data_out := by
  unfold EncryptData
  split
  · simp_all
  · simp_all
  · simp_all
  · rename_i w1 h
    have hw : (GenerateSealedKey env key_reference w).2 = w1 := by rw [h]
    rw [hw] at hunseal
    simp [EncryptPlaintext, hunseal, intToBool]

/-- C2 at a concrete input: the store refuses every unseal. -/
theorem C2_unseal_failure_reported_as_success_witness :
    (UnsealKey (refusing isUnseal) "alpha" [] []
      (GenerateSealedKey (refusing isUnseal) "alpha" freshWorld).2).result = Outcome.ret false ∧
    (EncryptData shiftCipher (refusing isUnseal) helloWorld [] "alpha" freshWorld).result
      = Outcome.ret true ∧
    (EncryptData shiftCipher (refusing isUnseal) helloWorld [] "alpha" freshWorld).data_out
      = [] :=
  ⟨by decide,
   C2_unseal_failure_reported_as_success shiftCipher (refusing isUnseal) helloWorld []
     "alpha" freshWorld (by decide) (by decide)⟩

/-- C3, failing on the code: `GenerateSealedKey` returns false in no
environment; with a store that refuses every `Fapi_CreateSeal` it returns true
for every reference and every starting world, and nothing has been sealed. -/
theorem C3_seal_failure_returns_true (env : Env) (key_reference : String) (w : World) :
    (GenerateSealedKey env key_reference w).1 ≠ Outcome.ret false ∧
    (GenerateSealedKey (refusing isCreateSeal) key_reference w).1 = Outcome.ret true ∧
    (GenerateSealedKey (refusing isCreateSeal) key_reference w).2.objects = w.objects := by
  refine ⟨?_, ?_⟩
  · obtain ⟨t, u, -, -, -, -, hshape⟩ := GenerateSealedKey_calls env key_reference w
    rcases hshape with ⟨-, what, h⟩ | ⟨-, h⟩ | ⟨k, -, h⟩ | ⟨k, iv, -, h⟩ <;>
      rw [h] <;> simp
  · cases hm : w.marker <;>
      simp [GenerateSealedKey, connectStore, Fapi_Initialize, Fapi_SetAuthCB, Fapi_Provision,
        openMarker, GetRandomData, Fapi_CreateSeal, World.call, refusing, calmEnv,
        isCreateSeal, hm]

/-- C4, failing on the code: whenever the connection block throws (connecting,
setting the auth callback, provisioning or writing the marker failed),
`DecryptData` ends with that `std::runtime_error` leaving it, for every input,
where `EncryptData` catches it and returns false. -/
theorem C4_decrypt_lets_exception_escape {Ctx : Type} (evp : Evp Ctx) (env : Env)
    (data_in data_out : List Nat) (key_reference : String) (w : World) (what : String)
    (hconnect : (connectStore env w).1 = some what) :
    (DecryptData evp env data_in data_out key_reference w).result = Outcome.threw what ∧
    (EncryptData evp env data_in data_out key_reference w).result = Outcome.ret false := by
  rcases hcs : connectStore env w with ⟨r, w1⟩
  rw [hcs] at hconnect
  simp only at hconnect
  subst hconnect
  constructor
  · simp [DecryptData, DecryptCiphertext, UnsealKey, hcs]
  · simp [EncryptData, GenerateSealedKey, hcs]

/-- C4 at concrete inputs: each of the four failures on first use of the store. -/
theorem C4_decrypt_lets_exception_escape_witness :
    (DecryptData shiftCipher (refusing (fun c => c == Call.fapiInitialize)) [1, 2, 3] []
      "alpha" freshWorld).result = Outcome.threw "TPM init failed" ∧
    (DecryptData shiftCipher (refusing (fun c => c == Call.fapiSetAuthCB)) [1, 2, 3] []
      "alpha" freshWorld).result = Outcome.threw "TPM init failed" ∧
    (DecryptData shiftCipher (refusing (fun c => c == Call.fapiProvision)) [1, 2, 3] []
      "alpha" freshWorld).result = Outcome.threw "TPM init failed" ∧
    (DecryptData shiftCipher (refusing (fun c => c == Call.markerWrite)) [1, 2, 3] []
      "alpha" freshWorld).result = Outcome.threw "TPM init failed" :=
  ⟨(C4_decrypt_lets_exception_escape shiftCipher _ [1, 2, 3] [] "alpha" freshWorld
      "TPM init failed" (by decide)).1,
   (C4_decrypt_lets_exception_escape shiftCipher _ [1, 2, 3] [] "alpha" freshWorld
      "TPM init failed" (by decide)).1,
   (C4_decrypt_lets_exception_escape shiftCipher _ [1, 2, 3] [] "alpha" freshWorld
      "TPM init failed" (by decide)).1,
   (C4_decrypt_lets_exception_escape shiftCipher _ [1, 2, 3] [] "alpha" freshWorld
      "TPM init failed" (by decide)).1⟩

/-- C5, failing on the code: for every reference, after `GenerateSealedKey` the
unsealed key has 16 bytes, not 32, and `EncryptPlaintext` returns true for
every plaintext: no length is compared before the cipher runs.  For
`hello world` under `alpha` the ciphertext has 16 bytes. -/
theorem C5_short_key_runs_the_cipher (seed : Nat) (key_reference : String)
    (plaintext ciphertext_string : List Nat) (w : World) :
    (UnsealKey (calmEnv seed) key_reference [] []
      (GenerateSealedKey (calmEnv seed) key_reference w).2).result = Outcome.ret true ∧
    (UnsealKey (calmEnv seed) key_reference [] []
      (GenerateSealedKey (calmEnv seed) key_reference w).2).unsealed_key_data.length = 16 ∧
    (UnsealKey (calmEnv seed) key_reference [] []
      (GenerateSealedKey (calmEnv seed) key_reference w).2).unsealed_iv_data.length = 16 ∧
    (EncryptPlaintext shiftCipher (calmEnv seed) key_reference plaintext ciphertext_string
      (GenerateSealedKey (calmEnv seed) key_reference w).2).result = Outcome.ret true ∧
    (EncryptPlaintext shiftCipher (calmEnv 7) "alpha" helloWorld []
      worldWithAlpha).ciphertext_string.length = 16 := by
  obtain ⟨w1, hg, ho1⟩ := GenerateSealedKey_calm seed key_reference w
  obtain ⟨w2, hu⟩ := UnsealKey_calm seed key_reference [] [] _ _ w1 ho1
  have hrun : ∃ c, shiftCipher.encryptRun (calmBytes seed 16) (calmBytes seed 16)
      (plaintext.take (strlen plaintext)) = some c := ⟨_, rfl⟩
  obtain ⟨c, hc⟩ := hrun
  rw [hg]
  simp only [hu, EncryptPlaintext_of_unsealed shiftCipher _ _ _ _ _ _ _ _ _ hu hc,
    calmBytes_length]
  exact ⟨trivial, trivial, trivial, trivial, by decide⟩

/-- C6: when `UnsealKey` has delivered key and IV and the final step
`EVP_DecryptFinal_ex` reports failure, `DecryptCiphertext` returns -1,
`DecryptData` returns false and `data_out` keeps its value. -/
theorem C6_final_failure_is_decrypt_failure {Ctx : Type} (evp : Evp Ctx) (env : Env)
    (data_in data_out : List Nat) (key_reference : String) (w : World)
    (hunseal : (UnsealKey env key_reference [] [] w).result = Outcome.ret true)
    (hfinal : decryptFinalFails evp (UnsealKey env key_reference [] [] w).unsealed_key_data
      (UnsealKey env key_reference [] [] w).unsealed_iv_data data_in = true) :
    (DecryptCiphertext evp env data_in key_reference w).result = Outcome.ret (-1) ∧
    (DecryptData evp env data_in data_out key_reference w).result = Outcome.ret false ∧
    (DecryptData evp env data_in data_out key_reference w).data_out = data_out := by
  have hc : (DecryptCiphertext evp env data_in key_reference w).result = Outcome.ret (-1) := by
    unfold decryptFinalFails at hfinal
    unfold DecryptCiphertext
    simp only [hunseal]
    cases hnew : evp.EVP_CIPHER_CTX_new with
    | none => simp [hnew] at hfinal
    | some ctx =>
      simp only [hnew] at hfinal ⊢
      cases hinit : evp.EVP_DecryptInit_ex ctx
          (UnsealKey env key_reference [] [] w).unsealed_key_data
          (UnsealKey env key_reference [] [] w).unsealed_iv_data with
      | none => simp [hinit] at hfinal
      | some ctx1 =>
        simp only [hinit] at hfinal ⊢
        cases hupd : evp.EVP_DecryptUpdate ctx1 data_in with
        | none => simp [hupd] at hfinal
        | some pr =>
          obtain ⟨ctx2, out1⟩ := pr
          simp only [hupd] at hfinal ⊢
          cases hfin : evp.EVP_DecryptFinal_ex (evp.EVP_CIPHER_CTX_set_padding ctx2 1) with
          | none => rfl
          | some out2 => simp [hfin] at hfinal
  refine ⟨hc, ?_, ?_⟩ <;> simp [DecryptData, hc]

/-- C6 at a concrete input: three bytes are no ciphertext of the shift cipher. -/
theorem C6_final_failure_is_decrypt_failure_witness :
    (DecryptCiphertext shiftCipher (calmEnv 7) [1, 2, 3] "alpha" worldWithAlpha).result
      = Outcome.ret (-1) ∧
    (DecryptData shiftCipher (calmEnv 7) [1, 2, 3] [9, 9] "alpha" worldWithAlpha).result
      = Outcome.ret false ∧
    (DecryptData shiftCipher (calmEnv 7) [1, 2, 3] [9, 9] "alpha" worldWithAlpha).data_out
      = [9, 9] :=
  C6_final_failure_is_decrypt_failure shiftCipher (calmEnv 7) [1, 2, 3] [9, 9] "alpha"
    worldWithAlpha (by decide) (by decide)

/-- C7, as the code has it: the key path is `"/HS/SRK/" ++ R` and the IV path
is `"/HS/SRK/" ++ R ++ "_iv"`, and the store is handed each as a C string, which
ends before the first NUL character; for `R` without a NUL character these are
the two paths in full.  The seal calls of `GenerateSealedKey` go to the key path
and then the IV path (both exactly when it returns true, the key path first once
it is connected and its first entropy read returns), the unseal calls of
`UnsealKey` go to the key path (exactly when its connection block passes) and
then the IV path (exactly when the key unseal delivered bytes), and neither
function unseals or seals elsewhere. -/
theorem C7_paths_are_c_strings (env : Env) (key_reference : String)
    (unsealed_key_data unsealed_iv_data : List Nat) (w : World) :
    sealed_data_path key_reference = "/HS/SRK/" ++ key_reference ∧
    sealed_iv_path key_reference = "/HS/SRK/" ++ key_reference ++ "_iv" ∧
    (Char.ofNat 0 ∉ key_reference.toList →
      c_str ("/HS/SRK/" ++ key_reference) = "/HS/SRK/" ++ key_reference ∧
      c_str ("/HS/SRK/" ++ key_reference ++ "_iv") = "/HS/SRK/" ++ key_reference ++ "_iv") ∧
    (sealPaths (callsSince w (GenerateSealedKey env key_reference w).2) = [] ∨
      sealPaths (callsSince w (GenerateSealedKey env key_reference w).2)
        = [c_str ("/HS/SRK/" ++ key_reference)] ∨
      sealPaths (callsSince w (GenerateSealedKey env key_reference w).2)
        = [c_str ("/HS/SRK/" ++ key_reference),
           c_str ("/HS/SRK/" ++ key_reference ++ "_iv")]) ∧
    ((GenerateSealedKey env key_reference w).1 = Outcome.ret true ↔
      sealPaths (callsSince w (GenerateSealedKey env key_reference w).2)
        = [c_str ("/HS/SRK/" ++ key_reference),
           c_str ("/HS/SRK/" ++ key_reference ++ "_iv")]) ∧
    (∀ w1 got, connectStore env w = (none, w1) → env.entropy w1.trace 16 = some got →
      (sealPaths (callsSince w (GenerateSealedKey env key_reference w).2)).head?
        = some (c_str ("/HS/SRK/" ++ key_reference))) ∧
    unsealPaths (callsSince w (GenerateSealedKey env key_reference w).2) = [] ∧
    (unsealPaths (callsSince w
        (UnsealKey env key_reference unsealed_key_data unsealed_iv_data w).world) = [] ∨
      unsealPaths (callsSince w
        (UnsealKey env key_reference unsealed_key_data unsealed_iv_data w).world)
        = [c_str ("/HS/SRK/" ++ key_reference)] ∨
      unsealPaths (callsSince w
        (UnsealKey env key_reference unsealed_key_data unsealed_iv_data w).world)
        = [c_str ("/HS/SRK/" ++ key_reference),
           c_str ("/HS/SRK/" ++ key_reference ++ "_iv")]) ∧
    ((connectStore env w).1 = none ↔
      (unsealPaths (callsSince w
        (UnsealKey env key_reference unsealed_key_data unsealed_iv_data w).world)).head?
        = some (c_str ("/HS/SRK/" ++ key_reference))) ∧
    (∀ w1, connectStore env w = (none, w1) →
      ((Fapi_Unseal env w1 (c_str ("/HS/SRK/" ++ key_reference))).1 ≠ none ↔
        unsealPaths (callsSince w
          (UnsealKey env key_reference unsealed_key_data unsealed_iv_data w).world)
          = [c_str ("/HS/SRK/" ++ key_reference),
             c_str ("/HS/SRK/" ++ key_reference ++ "_iv")])) ∧
    ((UnsealKey env key_reference unsealed_key_data unsealed_iv_data w).result
        = Outcome.ret true →
      unsealPaths (callsSince w
        (UnsealKey env key_reference unsealed_key_data unsealed_iv_data w).world)
        = [c_str ("/HS/SRK/" ++ key_reference),
           c_str ("/HS/SRK/" ++ key_reference ++ "_iv")]) ∧
    sealPaths (callsSince w
      (UnsealKey env key_reference unsealed_key_data unsealed_iv_data w).world) = [] := by
  have hi : "/HS/SRK/" ++ key_reference ++ "_iv" = sealed_iv_path key_reference := rfl
  have hk : "/HS/SRK/" ++ key_reference = sealed_data_path key_reference := rfl
  rw [hi, hk]
  obtain ⟨t, u, hg, hs, hu, -, hshape⟩ := GenerateSealedKey_calls env key_reference w
  obtain ⟨t', u', hg', hs', hu', -, hshape'⟩ :=
    UnsealKey_calls env key_reference unsealed_key_data unsealed_iv_data w
  have hcalls : callsSince w (GenerateSealedKey env key_reference w).2 = t ++ u :=
    callsSince_of_trace w _ (t ++ u) hg
  have hcalls' : callsSince w
      (UnsealKey env key_reference unsealed_key_data unsealed_iv_data w).world = t' ++ u' :=
    callsSince_of_trace w _ (t' ++ u') hg'
  refine ⟨rfl, rfl, nul_free_paths key_reference, ?_, ?_, ?_, ?_, ?_, ?_, ?_, ?_, ?_⟩
  · rw [hcalls, sealPaths_append, hs, List.nil_append]
    rcases hshape with ⟨rfl, -⟩ | ⟨rfl, -⟩ | ⟨k, rfl, -⟩ | ⟨k, iv, rfl, -⟩ <;>
      simp [sealPaths]
  · rw [hcalls, sealPaths_append, hs, List.nil_append]
    rcases hshape with ⟨rfl, what, h⟩ | ⟨rfl, h⟩ | ⟨k, rfl, h⟩ | ⟨k, iv, rfl, h⟩ <;>
      simp [sealPaths, h]
  · intro w1 got hconnect hkey
    exact GenerateSealedKey_seals_key_first env key_reference w w1 got hconnect hkey
  · rw [hcalls, unsealPaths_append, hu, List.nil_append]
    rcases hshape with ⟨rfl, -⟩ | ⟨rfl, -⟩ | ⟨k, rfl, -⟩ | ⟨k, iv, rfl, -⟩ <;>
      simp [unsealPaths]
  · rw [hcalls', unsealPaths_append, hu', List.nil_append]
    rcases hshape' with ⟨rfl, -⟩ | ⟨rfl, -⟩ | ⟨rfl, -⟩ <;> simp [unsealPaths]
  · rw [UnsealKey_returns_iff_connected env key_reference unsealed_key_data unsealed_iv_data w,
      hcalls', unsealPaths_append, hu', List.nil_append]
    rcases hshape' with ⟨rfl, what, h⟩ | ⟨rfl, h⟩ | ⟨rfl, b, h⟩ <;>
      simp [unsealPaths, h]
  · intro w1 hconnect
    rw [UnsealKey_unsealPaths env key_reference unsealed_key_data unsealed_iv_data w w1 hconnect]
    split_ifs with h <;> simp [h]
  · intro hret
    rw [hcalls', unsealPaths_append, hu', List.nil_append]
    rcases hshape' with ⟨-, what, h⟩ | ⟨-, h⟩ | ⟨rfl, -⟩
    · rw [h] at hret; cases hret
    · rw [h] at hret; cases hret
    · simp [unsealPaths]
  · rw [hcalls', sealPaths_append, hs', List.nil_append]
    rcases hshape' with ⟨rfl, -⟩ | ⟨rfl, -⟩ | ⟨rfl, -⟩ <;> simp [sealPaths]

/-- C7 fails as stated: for the reference `a`, NUL, `b` both seal calls and both
unseal calls go to `/HS/SRK/a`, which is neither `"/HS/SRK/" ++ R` nor
`"/HS/SRK/" ++ R ++ "_iv"`; key and IV share one object. -/
theorem C7_nul_reference_cuts_both_paths :
    (GenerateSealedKey (calmEnv 7) nulReference freshWorld).1 = Outcome.ret true ∧
    sealPaths (callsSince freshWorld (GenerateSealedKey (calmEnv 7) nulReference freshWorld).2)
      = ["/HS/SRK/a", "/HS/SRK/a"] ∧
    sealPaths (callsSince freshWorld (GenerateSealedKey (calmEnv 7) nulReference freshWorld).2)
      ≠ ["/HS/SRK/" ++ nulReference, "/HS/SRK/" ++ nulReference ++ "_iv"] ∧
    (UnsealKey (calmEnv 7) nulReference [] []
      (GenerateSealedKey (calmEnv 7) nulReference freshWorld).2).result = Outcome.ret true ∧
    unsealPaths (callsSince (GenerateSealedKey (calmEnv 7) nulReference freshWorld).2
      (UnsealKey (calmEnv 7) nulReference [] []
        (GenerateSealedKey (calmEnv 7) nulReference freshWorld).2).world)
      = ["/HS/SRK/a", "/HS/SRK/a"] ∧
    "/HS/SRK/a" ≠ "/HS/SRK/" ++ nulReference ∧
    "/HS/SRK/a" ≠ "/HS/SRK/" ++ nulReference ++ "_iv" := by
  decide


/-- C8, as the code has it: once the connection block has passed and both reads
of the entropy device return, `GenerateSealedKey` returns true and its entropy
requests and seal calls are exactly: request 16 bytes, seal a 16-byte key buffer
at the key path, request 16 bytes, seal a 16-byte IV buffer at the IV path, each
path handed over as a C string (the path in full for a reference without a NUL
character); a buffer holds exactly the bytes read when the read delivered 16
bytes; the outcome of the first seal has no influence on the second. -/
theorem C8_generate_seals_the_buffers (env : Env) (key_reference : String)
    (w w1 : World) (gotKey gotIv : List Nat)
    (hconnect : connectStore env w = (none, w1))
    (hkey : env.entropy w1.trace 16 = some gotKey)
    (hiv : env.entropy (w1.trace ++ [Call.getRandom 16] ++
      [Call.fapiCreateSeal (c_str ("/HS/SRK/" ++ key_reference)) "noDa" ""
        kAuthenticationString (readInto (List.replicate 16 0) 16 gotKey)]) 16 = some gotIv) :
    (GenerateSealedKey env key_reference w).1 = Outcome.ret true ∧
    (∃ symmetric_key iv : List Nat,
      materialCalls (callsSince w (GenerateSealedKey env key_reference w).2) =
        [Call.getRandom 16,
         Call.fapiCreateSeal (c_str ("/HS/SRK/" ++ key_reference)) "noDa" ""
           kAuthenticationString symmetric_key,
         Call.getRandom 16,
         Call.fapiCreateSeal (c_str ("/HS/SRK/" ++ key_reference ++ "_iv")) "noDa" ""
           kAuthenticationString iv] ∧
      symmetric_key.length = 16 ∧ iv.length = 16 ∧
      (gotKey.length = 16 → symmetric_key = gotKey) ∧
      (gotIv.length = 16 → iv = gotIv)) ∧
    (Char.ofNat 0 ∉ key_reference.toList →
      c_str ("/HS/SRK/" ++ key_reference) = "/HS/SRK/" ++ key_reference ∧
      c_str ("/HS/SRK/" ++ key_reference ++ "_iv") = "/HS/SRK/" ++ key_reference ++ "_iv") := by
  obtain ⟨hret, hcalls⟩ :=
    GenerateSealedKey_material env key_reference w w1 gotKey gotIv hconnect hkey hiv
  exact ⟨hret,
    ⟨readInto (List.replicate 16 0) 16 gotKey, readInto (List.replicate 16 0) 16 gotIv,
      hcalls, readInto_length gotKey, readInto_length gotIv,
      fun h => readInto_full _ _ _ h (by simp), fun h => readInto_full _ _ _ h (by simp)⟩,
    nul_free_paths key_reference⟩

/-- C8 at a concrete input: first use of the store under reference `alpha`, both
reads delivering 16 bytes. -/
theorem C8_generate_seals_the_buffers_witness :
    (GenerateSealedKey (calmEnv 7) "alpha" freshWorld).1 = Outcome.ret true ∧
    (∃ symmetric_key iv : List Nat,
      materialCalls (callsSince freshWorld (GenerateSealedKey (calmEnv 7) "alpha" freshWorld).2) =
        [Call.getRandom 16,
         Call.fapiCreateSeal (c_str ("/HS/SRK/" ++ "alpha")) "noDa" ""
           kAuthenticationString symmetric_key,
         Call.getRandom 16,
         Call.fapiCreateSeal (c_str ("/HS/SRK/" ++ "alpha" ++ "_iv")) "noDa" ""
           kAuthenticationString iv] ∧
      symmetric_key.length = 16 ∧ iv.length = 16 ∧
      ([7, 8, 9, 10, 11, 12, 13, 14, 15, 16, 17, 18, 19, 20, 21, 22].length = 16 →
        symmetric_key = [7, 8, 9, 10, 11, 12, 13, 14, 15, 16, 17, 18, 19, 20, 21, 22]) ∧
      ([7, 8, 9, 10, 11, 12, 13, 14, 15, 16, 17, 18, 19, 20, 21, 22].length = 16 →
        iv = [7, 8, 9, 10, 11, 12, 13, 14, 15, 16, 17, 18, 19, 20, 21, 22])) ∧
    (Char.ofNat 0 ∉ "alpha".toList →
      c_str ("/HS/SRK/" ++ "alpha") = "/HS/SRK/" ++ "alpha" ∧
      c_str ("/HS/SRK/" ++ "alpha" ++ "_iv") = "/HS/SRK/" ++ "alpha" ++ "_iv") :=
  C8_generate_seals_the_buffers (calmEnv 7) "alpha" freshWorld
    (connectStore (calmEnv 7) freshWorld).2
    [7, 8, 9, 10, 11, 12, 13, 14, 15, 16, 17, 18, 19, 20, 21, 22]
    [7, 8, 9, 10, 11, 12, 13, 14, 15, 16, 17, 18, 19, 20, 21, 22]
    (by decide) (by decide) (by decide)

/-- C8 fails as stated, twice.  When each read of the entropy device delivers
four bytes, `GenerateSealedKey` returns true and seals those four bytes followed
by twelve zero bytes, not 16 bytes of the random source.  For the reference `a`,
NUL, `b` key and IV are both sealed at `/HS/SRK/a`, which is neither the key
path nor the IV path of that reference. -/
theorem C8_short_read_and_cut_path :
    (GenerateSealedKey shortReads "alpha" freshWorld).1 = Outcome.ret true ∧
    materialCalls (callsSince freshWorld (GenerateSealedKey shortReads "alpha" freshWorld).2) =
      [Call.getRandom 16,
       Call.fapiCreateSeal "/HS/SRK/alpha" "noDa" "" "default_auth_key"
         [201, 202, 203, 204, 0, 0, 0, 0, 0, 0, 0, 0, 0, 0, 0, 0],
       Call.getRandom 16,
       Call.fapiCreateSeal "/HS/SRK/alpha_iv" "noDa" "" "default_auth_key"
         [201, 202, 203, 204, 0, 0, 0, 0, 0, 0, 0, 0, 0, 0, 0, 0]] ∧
    shortReads.entropy (connectStore shortReads freshWorld).2.trace 16
      = some [201, 202, 203, 204] ∧
    (GenerateSealedKey (calmEnv 7) nulReference freshWorld).1 = Outcome.ret true ∧
    materialCalls
        (callsSince freshWorld (GenerateSealedKey (calmEnv 7) nulReference freshWorld).2) =
      [Call.getRandom 16,
       Call.fapiCreateSeal "/HS/SRK/a" "noDa" "" "default_auth_key"
         [7, 8, 9, 10, 11, 12, 13, 14, 15, 16, 17, 18, 19, 20, 21, 22],
       Call.getRandom 16,
       Call.fapiCreateSeal "/HS/SRK/a" "noDa" "" "default_auth_key"
         [7, 8, 9, 10, 11, 12, 13, 14, 15, 16, 17, 18, 19, 20, 21, 22]] ∧
    "/HS/SRK/a" ≠ "/HS/SRK/" ++ nulReference ∧
    "/HS/SRK/a" ≠ "/HS/SRK/" ++ nulReference ++ "_iv" := by
  decide

/-- C9: when the key unseal or the IV unseal fails, `UnsealKey` returns false;
whenever it does not return true, both output vectors keep their value; and
when it returns true, both unseals succeeded and the outputs are their bytes. -/
theorem C9_unseal_is_all_or_nothing (env : Env) (key_reference : String)
    (unsealed_key_data unsealed_iv_data : List Nat) (w : World) :
    (∀ w1, connectStore env w = (none, w1) →
      ((Fapi_Unseal env w1 (c_str (sealed_data_path key_reference))).1 = none ∨
        (Fapi_Unseal env (Fapi_Unseal env w1 (c_str (sealed_data_path key_reference))).2
          (c_str (sealed_iv_path key_reference))).1 = none) →
      (UnsealKey env key_reference unsealed_key_data unsealed_iv_data w).result
        = Outcome.ret false) ∧
    ((UnsealKey env key_reference unsealed_key_data unsealed_iv_data w).result
        ≠ Outcome.ret true →
      (UnsealKey env key_reference unsealed_key_data unsealed_iv_data w).unsealed_key_data
        = unsealed_key_data ∧
      (UnsealKey env key_reference unsealed_key_data unsealed_iv_data w).unsealed_iv_data
        = unsealed_iv_data) ∧
    ((UnsealKey env key_reference unsealed_key_data unsealed_iv_data w).result
        = Outcome.ret true →
      ∃ w1, connectStore env w = (none, w1) ∧
        (Fapi_Unseal env w1 (c_str (sealed_data_path key_reference))).1 = some
          (UnsealKey env key_reference unsealed_key_data unsealed_iv_data w).unsealed_key_data ∧
        (Fapi_Unseal env (Fapi_Unseal env w1 (c_str (sealed_data_path key_reference))).2
          (c_str (sealed_iv_path key_reference))).1 = some
          (UnsealKey env key_reference unsealed_key_data unsealed_iv_data w).unsealed_iv_data) := by
  rcases hcs : connectStore env w with ⟨r, w1⟩
  cases r with
  | some what => simp [UnsealKey, hcs]
  | none =>
    rcases h1 : Fapi_Unseal env w1 (c_str (sealed_data_path key_reference)) with ⟨k, w2⟩
    cases k with
    | none => simp [UnsealKey, hcs, h1]
    | some key =>
      rcases h2 : Fapi_Unseal env w2 (c_str (sealed_iv_path key_reference)) with ⟨i, w3⟩
      cases i with
      | none => simp [UnsealKey, hcs, h1, h2]
      | some iv => simp [UnsealKey, hcs, h1, h2]

/-- C9 at a concrete input: the IV unseal fails, the outputs `[4]` and `[5]`
are returned as they were. -/
theorem C9_unseal_is_all_or_nothing_witness :
    (UnsealKey (calmEnv 7) "alpha" [4] [5] worldWithoutIv).result = Outcome.ret false ∧
    (UnsealKey (calmEnv 7) "alpha" [4] [5] worldWithoutIv).unsealed_key_data = [4] ∧
    (UnsealKey (calmEnv 7) "alpha" [4] [5] worldWithoutIv).unsealed_iv_data = [5] :=
  ⟨(C9_unseal_is_all_or_nothing (calmEnv 7) "alpha" [4] [5] worldWithoutIv).1
      (connectStore (calmEnv 7) worldWithoutIv).2 (by decide) (Or.inr (by decide)),
   (C9_unseal_is_all_or_nothing (calmEnv 7) "alpha" [4] [5] worldWithoutIv).2.1 (by decide)⟩

/-- C10, as the code has it: a null object path gives the bad-value code and
leaves `auth` alone; every other object path, the empty string included,
gives success and sets `auth` to `default_auth_key`, whatever `description`
and `userData` are. -/
theorem C10_auth_callback (description auth : Option String) (userData : Nat) :
    AuthCallback none description auth userData = (TSS2_RC.TSS2_FAPI_RC_BAD_VALUE, auth) ∧
    ∀ objectPath : String, AuthCallback (some objectPath) description auth userData
      = (TSS2_RC.TSS2_RC_SUCCESS, some "default_auth_key") := by
  exact ⟨rfl, fun _ => rfl⟩

/-- C10 fails as stated: for the empty object path the callback returns
success, not the bad-value code, and sets `auth`. -/
theorem C10_empty_path_is_accepted :
    (AuthCallback (some "") none none 0).1 ≠ TSS2_RC.TSS2_FAPI_RC_BAD_VALUE ∧
    (AuthCallback (some "") none none 0).1 = TSS2_RC.TSS2_RC_SUCCESS ∧
    (AuthCallback (some "") none none 0).2 = some "default_auth_key" := by
  decide

/-- C13, failing on the code: when `UnsealKey` returns false inside
`EncryptPlaintext`, `EncryptData` succeeds and the ciphertext it returns is the
empty `data_out` it was given: not at least 16 bytes. -/
theorem C13_success_without_ciphertext {Ctx : Type} (evp : Evp Ctx) (env : Env)
    (data_in : List Nat) (key_reference : String) (w : World)
    (hgen : (GenerateSealedKey env key_reference w).1 = Outcome.ret true)
    (hunseal : (UnsealKey env key_reference [] []
      (GenerateSealedKey env key_reference w).2).result = Outcome.ret false) :
    (EncryptData evp env data_in [] key_reference w).result = Outcome.ret true ∧
    (EncryptData evp env data_in [] key_reference w).data_out.length = 0 ∧
    ¬ 16 ≤ (EncryptData evp env data_in [] key_reference w).data_out.length := by
  have h : (EncryptData evp env data_in [] key_reference w).result = Outcome.ret true ∧
      (EncryptData evp env data_in [] key_reference w).data_out = [] := by
    unfold EncryptData
    split
    · simp_all
    · simp_all
    · simp_all
    · rename_i w1 h
      have hw : (GenerateSealedKey env key_reference w).2 = w1 := by rw [h]
      rw [hw] at hunseal
      simp [EncryptPlaintext, hunseal, intToBool]
  rw [h.2]
  exact ⟨h.1, rfl, by simp⟩

/-- C13 at a concrete input: `hello world` under `alpha` gives no ciphertext when
the store refuses the unseal, and 16 bytes when every call succeeds. -/
theorem C13_success_without_ciphertext_witness :
    (EncryptData shiftCipher (refusing isUnseal) helloWorld [] "alpha" freshWorld).result
      = Outcome.ret true ∧
    (EncryptData shiftCipher (refusing isUnseal) helloWorld [] "alpha"
      freshWorld).data_out.length = 0 ∧
    (EncryptData shiftCipher (calmEnv 7) helloWorld [] "alpha" freshWorld).data_out.length
      = 16 :=
  ⟨(C13_success_without_ciphertext shiftCipher (refusing isUnseal) helloWorld "alpha"
      freshWorld (by decide) (by decide)).1,
   (C13_success_without_ciphertext shiftCipher (refusing isUnseal) helloWorld "alpha"
      freshWorld (by decide) (by decide)).2.1,
   by decide⟩

/-- C14, failing on the code: the array `ciphertext` has `plaintext.length() * 2`
bytes, at least `n + 16` only from 16 bytes of plaintext on; for a plaintext
shorter than 8 bytes `EncryptPlaintext` returns true after the cipher wrote
more bytes than the array has. -/
theorem C14_ciphertext_array_too_small {Ctx : Type} (evp : Evp Ctx) (env : Env)
    (key_reference : String) (plaintext ciphertext_string key iv c : List Nat) (w w1 : World)
    (hu : UnsealKey env key_reference [] [] w = ⟨Outcome.ret true, key, iv, w1⟩)
    (hrun : evp.encryptRun key iv (plaintext.take (strlen plaintext)) = some c)
    (hblock : 16 ≤ c.length) (hshort : plaintext.length < 8) :
    (EncryptPlaintext evp env key_reference plaintext ciphertext_string w).result
      = Outcome.ret true ∧
    ciphertextCapacity plaintext <
      (EncryptPlaintext evp env key_reference plaintext ciphertext_string
        w).ciphertext_string.length ∧
    ciphertextCapacity plaintext < plaintext.length + 16 ∧
    (∀ p : List Nat, p.length + 16 ≤ ciphertextCapacity p ↔ 16 ≤ p.length) := by
  rw [EncryptPlaintext_of_unsealed evp env key_reference plaintext ciphertext_string key iv c
    w w1 hu hrun]
  refine ⟨rfl, ?_, ?_, ?_⟩
  · simp only [ciphertextCapacity]; omega
  · simp only [ciphertextCapacity]; omega
  · intro p
    simp only [ciphertextCapacity]
    omega

/-- C14 at a concrete input: for `abc` the array has 6 bytes and 16 are written;
on the decrypt side the 5 bytes returned for a 16-byte ciphertext fit the
array of `DecryptData`. -/
theorem C14_ciphertext_array_too_small_witness :
    (EncryptPlaintext shiftCipher (calmEnv 7) "alpha" abc [] worldWithAlpha).result
      = Outcome.ret true ∧
    ciphertextCapacity abc <
      (EncryptPlaintext shiftCipher (calmEnv 7) "alpha" abc []
        worldWithAlpha).ciphertext_string.length ∧
    ciphertextCapacity abc = 6 ∧
    (EncryptPlaintext shiftCipher (calmEnv 7) "alpha" abc []
      worldWithAlpha).ciphertext_string.length = 16 ∧
    (DecryptData shiftCipher (calmEnv 7) encryptedHelloZeroWorld.data_out [] "alpha"
      encryptedHelloZeroWorld.world).data_out.length
      ≤ plaintextCapacity encryptedHelloZeroWorld.data_out :=
  ⟨(C14_ciphertext_array_too_small shiftCipher (calmEnv 7) "alpha" abc [] (calmBytes 7 16)
      (calmBytes 7 16)
      [49, 50, 51, 221, 221, 221, 221, 221, 221, 221, 221, 221, 221, 221, 221, 221]
      worldWithAlpha (UnsealKey (calmEnv 7) "alpha" [] [] worldWithAlpha).world
      (by decide) (by decide) (by decide) (by decide)).1,
   (C14_ciphertext_array_too_small shiftCipher (calmEnv 7) "alpha" abc [] (calmBytes 7 16)
      (calmBytes 7 16)
      [49, 50, 51, 221, 221, 221, 221, 221, 221, 221, 221, 221, 221, 221, 221, 221]
      worldWithAlpha (UnsealKey (calmEnv 7) "alpha" [] [] worldWithAlpha).world
      (by decide) (by decide) (by decide) (by decide)).2.1,
   by decide, by decide, by decide⟩

/-- C15, failing on the code: `UnsealKey` and `GenerateSealedKey` make no
`Fapi_Finalize` call on any path, so after a successful `Fapi_Initialize` one
more session is open than before the call. -/
theorem C15_session_is_never_finalized (env : Env) (key_reference : String)
    (unsealed_key_data unsealed_iv_data : List Nat) (w : World) :
    (UnsealKey env key_reference unsealed_key_data unsealed_iv_data w).world.sessions
      = w.sessions + (if env.ok w.trace Call.fapiInitialize = true then 1 else 0) ∧
    finalizeCalls (callsSince w
      (UnsealKey env key_reference unsealed_key_data unsealed_iv_data w).world) = 0 ∧
    (GenerateSealedKey env key_reference w).2.sessions
      = w.sessions + (if env.ok w.trace Call.fapiInitialize = true then 1 else 0) ∧
    finalizeCalls (callsSince w (GenerateSealedKey env key_reference w).2) = 0 := by
  obtain ⟨t, ht, -, hf, -, -, hs⟩ := connectStore_bookkeeping env w
  obtain ⟨u, hu, -, hfu, -, hsu⟩ :=
    UnsealKey_bookkeeping env key_reference unsealed_key_data unsealed_iv_data w
  obtain ⟨g, hg, -, hfg, -, hsg, -⟩ := GenerateSealedKey_bookkeeping env key_reference w
  have hcu := callsSince_of_trace w _ (t ++ u) (by rw [hu, ht, List.append_assoc])
  have hcg := callsSince_of_trace w _ (t ++ g) (by rw [hg, ht, List.append_assoc])
  rw [hcu, hcg, finalizeCalls_append, finalizeCalls_append, hsu, hsg, hs, hf, hfu, hfg]
  exact ⟨rfl, rfl, rfl, rfl⟩

/-- C16: the key path of `R ++ "_iv"` is the IV path of `R`, also as C strings,
the two references differ, and `GenerateSealedKey` for `R ++ "_iv"` seals its
key at the IV path of `R` as the store is handed it (the path in full when `R`
has no NUL character); when every call succeeds the object at the IV path of
`R` then holds that key. -/
theorem C16_paths_of_distinct_references_collide (env : Env) (key_reference : String)
    (seed : Nat) (w : World) :
    sealed_data_path (key_reference ++ "_iv") = sealed_iv_path key_reference ∧
    c_str (sealed_data_path (key_reference ++ "_iv")) = c_str (sealed_iv_path key_reference) ∧
    key_reference ++ "_iv" ≠ key_reference ∧
    (∃ r1 r2 : String, r1 ≠ r2 ∧ sealed_data_path r2 = sealed_iv_path r1) ∧
    ((GenerateSealedKey env (key_reference ++ "_iv") w).1 = Outcome.ret true →
      sealPaths (callsSince w (GenerateSealedKey env (key_reference ++ "_iv") w).2)
        = [c_str (sealed_iv_path key_reference),
           c_str (sealed_iv_path key_reference ++ "_iv")]) ∧
    (Char.ofNat 0 ∉ key_reference.toList →
      (GenerateSealedKey env (key_reference ++ "_iv") w).1 = Outcome.ret true →
      sealPaths (callsSince w (GenerateSealedKey env (key_reference ++ "_iv") w).2)
        = [sealed_iv_path key_reference, sealed_iv_path key_reference ++ "_iv"]) ∧
    List.lookup (c_str (sealed_iv_path key_reference))
      (GenerateSealedKey (calmEnv seed) (key_reference ++ "_iv") w).2.objects
      = some (calmBytes seed 16) := by
  have hne : key_reference ++ "_iv" ≠ key_reference := by
    intro h
    have hl := congrArg String.length h
    simp only [String.length_append] at hl
    have h3 : "_iv".length = 3 := by decide
    omega
  have hkp := key_path_of_iv_reference key_reference
  have hip : sealed_iv_path (key_reference ++ "_iv") = sealed_iv_path key_reference ++ "_iv" := by
    rw [sealed_iv_path, hkp]
  have hpaths : (GenerateSealedKey env (key_reference ++ "_iv") w).1 = Outcome.ret true →
      sealPaths (callsSince w (GenerateSealedKey env (key_reference ++ "_iv") w).2)
        = [c_str (sealed_iv_path key_reference),
           c_str (sealed_iv_path key_reference ++ "_iv")] := by
    intro hret
    obtain ⟨t, u, hg, hs, -, -, hshape⟩ :=
      GenerateSealedKey_calls env (key_reference ++ "_iv") w
    rw [callsSince_of_trace w _ (t ++ u) hg, sealPaths_append, hs, List.nil_append]
    rcases hshape with ⟨-, what, h⟩ | ⟨-, h⟩ | ⟨k, -, h⟩ | ⟨k, iv, rfl, -⟩
    · rw [h] at hret; cases hret
    · rw [h] at hret; cases hret
    · rw [h] at hret; cases hret
    · rw [hip, hkp]
      rfl
  refine ⟨hkp, congrArg c_str hkp, hne,
    ⟨key_reference, key_reference ++ "_iv", hne.symm, hkp⟩, hpaths, ?_, ?_⟩
  · intro hnul hret
    have hnul' : Char.ofNat 0 ∉ (key_reference ++ "_iv").toList := by
      have h2 : Char.ofNat 0 ∉ "_iv".toList := by decide
      simp only [String.toList, String.data_append, List.mem_append]
      rintro (hm | hm)
      · exact hnul hm
      · exact h2 hm
    obtain ⟨-, h2⟩ := nul_free_paths key_reference hnul
    obtain ⟨-, h4⟩ := nul_free_paths (key_reference ++ "_iv") hnul'
    rw [hip] at h4
    rw [hpaths hret, h2, h4]
  · obtain ⟨w1, hg, ho⟩ := GenerateSealedKey_calm seed (key_reference ++ "_iv") w
    rw [hg]
    simp only [ho]
    rw [← hkp]
    cases h : c_str (sealed_data_path (key_reference ++ "_iv"))
        == c_str (sealed_iv_path (key_reference ++ "_iv")) <;>
      simp [List.lookup, h]

end TpmDemo
